import Mathlib

/-!
Verification development for the `forecaster` repository's forecast engine
(`forecast_engine.py`).

The Python source is shallowly embedded: amounts (Python floats) are modelled
as exact rationals `ℚ`, calendar timestamps as proleptic-Gregorian day numbers
(`Date.toDays`, day 0 = 0001-01-01, so `toDays d % 7` is Python's
`datetime.weekday`), and the unbounded `while` loops of the projection code as
fuelled recursions; each caller passes fuel that dominates the day span the
loop can traverse, so the fuelled function agrees with the source loop on all
inputs the loop terminates on.  `dict` inputs that may fail coercion are
modelled with `Option` fields.  Presentation-only outputs (habit insights,
JSON sanitization) are not modelled.
-/

namespace Forecaster

/-! ## Python string primitives

Models of the Python `str` operations used by the engine: `str.strip`,
`str.lower`, whitespace `str.split`, substring membership (`in`), and
`str.replace`. -/

/-- Python `str.strip()` (no argument): drop whitespace from both ends. -/
def pyStrip (s : String) : String :=
  String.mk (((s.toList.dropWhile Char.isWhitespace).reverse.dropWhile
      Char.isWhitespace).reverse)

/-- Python `str.lower()` (ASCII fragment). -/
def pyLower (s : String) : String :=
  String.mk (s.toList.map Char.toLower)

/-- Worker for `pySplitWs`: structural scan accumulating the current token
(reversed). -/
def pySplitWsAux : List Char → List Char → List String
  | [], cur => if cur = [] then [] else [String.mk cur.reverse]
  | c :: rest, cur =>
    if c.isWhitespace then
      if cur = [] then pySplitWsAux rest []
      else String.mk cur.reverse :: pySplitWsAux rest []
    else pySplitWsAux rest (c :: cur)

/-- Python `str.split()` with no argument: split on whitespace runs,
dropping empty pieces. -/
def pySplitWs (s : String) : List String :=
  pySplitWsAux s.toList []

/-- Worker for `pyReplace`: fuelled left-to-right non-overlapping
replacement (the fuel, one unit per consumed character, always suffices at
`l.length`). -/
def pyReplaceAux (pat repl : List Char) : Nat → List Char → List Char
  | 0, l => l
  | _ + 1, [] => []
  | f + 1, c :: rest =>
    if pat.isPrefixOf (c :: rest) then
      repl ++ pyReplaceAux pat repl f (List.drop (pat.length - 1) rest)
    else c :: pyReplaceAux pat repl f rest

/-- Python `str.replace` for a non-empty pattern: replace all
non-overlapping occurrences, scanning left to right. -/
def pyReplace (s pat repl : String) : String :=
  String.mk (pyReplaceAux pat.toList repl.toList s.toList.length s.toList)

/-- Python `str.endswith`. -/
def pyEndsWith (s suffix : String) : Bool :=
  suffix.toList.isSuffixOf s.toList

/-- Substring test on character lists: `needle` occurs contiguously in
`hay`.  Models Python's `needle in hay` for strings. -/
def strContainsAux (hay needle : List Char) : Bool :=
  needle.isPrefixOf hay ||
    match hay with
    | [] => false
    | _ :: t => strContainsAux t needle

/-- Python `needle in hay` for strings. -/
def strContains (hay needle : String) : Bool :=
  strContainsAux hay.toList needle.toList

/-- Python `str.replace('_', ' ')`. -/
def underscoreToSpace (s : String) : String :=
  String.mk (s.toList.map fun c => if c = '_' then ' ' else c)

/-- Python `str.title()`: uppercase each letter that starts an alphabetic
run, lowercase the rest. -/
def pyTitle (s : String) : String :=
  String.mk ((s.toList.foldl
    (fun (acc : List Char × Bool) c =>
      let isA := c.isAlpha
      ((if isA ∧ ¬ acc.2 then c.toUpper
        else if isA then c.toLower else c) :: acc.1, isA))
    ([], false)).1.reverse)

/-! ## Python numeric primitives -/

/-- Python `round` to an integer: round-half-to-even.
(`q.num / q.den` is `⌊q⌋`, cf. `Rat.floor_def`, spelled so that the kernel
can evaluate it.) -/
def pyRoundHalfEven (q : ℚ) : ℤ :=
  let f : ℤ := q.num / (q.den : ℤ)
  let r : ℚ := q - (f : ℚ)
  if r < 1/2 then f
  else if 1/2 < r then f + 1
  else if f % 2 = 0 then f else f + 1

/-- Python `round(x, 2)` modelled over exact rationals. -/
def pyRound2 (q : ℚ) : ℚ :=
  (pyRoundHalfEven (q * 100) : ℚ) / 100

/-- `numpy.median`: mean of the middle element(s) of the sorted list.
Callers guard against the empty list (where numpy returns NaN). -/
def npMedian (l : List ℚ) : ℚ :=
  let s := List.insertionSort (· ≤ ·) l
  let n := l.length
  if n % 2 = 1 then s.getD (n / 2) 0
  else (s.getD (n / 2 - 1) 0 + s.getD (n / 2) 0) / 2

/-- `numpy.percentile` with the default linear interpolation.
Callers guard against the empty list. -/
def npPercentile (l : List ℚ) (q : ℚ) : ℚ :=
  let s := List.insertionSort (· ≤ ·) l
  let n := l.length
  let pos : ℚ := q / 100 * ((n : ℚ) - 1)
  let i : ℤ := ⌊pos⌋
  let frac : ℚ := pos - i
  let lo := s.getD i.toNat 0
  let hi := s.getD (i.toNat + 1) 0
  if i.toNat + 1 < n then lo + frac * (hi - lo) else lo

/-- Arithmetic mean; callers guard against the empty list. -/
def listMean (l : List ℚ) : ℚ :=
  l.sum / (l.length : ℚ)

/-! ## Calendar model

Proleptic Gregorian calendar as used by `datetime` / `pandas.Timestamp` /
`calendar.monthrange`.  `Date.toDays` maps 0001-01-01 to day 0, so Python's
`date.weekday()` (Monday = 0) is `toDays d % 7`. -/

structure Date where
  year : Int
  month : Int
  day : Int
deriving DecidableEq, Repr

/-- `calendar.isleap`. -/
def isLeap (y : Int) : Bool :=
  (y % 4 == 0 && y % 100 != 0) || y % 400 == 0

/-- `calendar.monthrange(y, m)[1]`: number of days in the month (total
function; months outside 1..12 do not arise from valid dates). -/
def daysInMonth (y m : Int) : Int :=
  if m = 2 then (if isLeap y then 29 else 28)
  else if m = 4 ∨ m = 6 ∨ m = 9 ∨ m = 11 then 30
  else 31

/-- Days in year `y` before the first of month `m` (cumulative table). -/
def daysBeforeMonth (y m : Int) : Int :=
  let f : Int := if isLeap y then 1 else 0
  if m ≤ 1 then 0
  else if m = 2 then 31
  else if m = 3 then 59 + f
  else if m = 4 then 90 + f
  else if m = 5 then 120 + f
  else if m = 6 then 151 + f
  else if m = 7 then 181 + f
  else if m = 8 then 212 + f
  else if m = 9 then 243 + f
  else if m = 10 then 273 + f
  else if m = 11 then 304 + f
  else if m = 12 then 334 + f
  else 365 + f

/-- Days before January 1 of year `y`, counted from 0001-01-01. -/
def daysBeforeYear (y : Int) : Int :=
  365 * (y - 1) + (y - 1) / 4 - (y - 1) / 100 + (y - 1) / 400

/-- Day number of a calendar date (0001-01-01 ↦ 0). -/
def Date.toDays (d : Date) : Int :=
  daysBeforeYear d.year + daysBeforeMonth d.year d.month + (d.day - 1)

/-- Day number of the first of the month with absolute month index `i`
(`i = year * 12 + (month - 1)`). -/
def monthStart (i : Int) : Int :=
  daysBeforeYear (i / 12) + daysBeforeMonth (i / 12) (i % 12 + 1)

/-- A calendar-valid date (as every Python `datetime` is). -/
def ValidDate (d : Date) : Prop :=
  1 ≤ d.year ∧ 1 ≤ d.month ∧ d.month ≤ 12 ∧ 1 ≤ d.day ∧
    d.day ≤ daysInMonth d.year d.month

instance (d : Date) : Decidable (ValidDate d) := by
  unfold ValidDate; infer_instance

/-- The calendar successor: models adding `Timedelta(days=1)` to a (valid)
timestamp. -/
def nextDay (d : Date) : Date :=
  if d.day < daysInMonth d.year d.month then ⟨d.year, d.month, d.day + 1⟩
  else if d.month < 12 then ⟨d.year, d.month + 1, 1⟩
  else ⟨d.year + 1, 1, 1⟩

/-- Adding `k` days to a (valid) timestamp. -/
def addDaysPos (d : Date) : Nat → Date
  | 0 => d
  | k + 1 => addDaysPos (nextDay d) k

/-- `ForecastEngine._advance_month_same_day` (forecast_engine.py:276-288):
advance `months` months from `reference`, anchoring to `target_day` clamped
to the target month's length. -/
def advance_month_same_day (reference : Date) (months : Int)
    (targetDay : Option Int) : Date :=
  let td := targetDay.getD reference.day
  let totalMonths := reference.year * 12 + (reference.month - 1) + months
  let year := totalMonths / 12
  let month := totalMonths % 12 + 1
  ⟨year, month, min td (daysInMonth year month)⟩

/-! ### Calendar lemmas -/

theorem daysInMonth_ge (y m : Int) : 28 ≤ daysInMonth y m := by
  unfold daysInMonth
  split_ifs <;> omega

theorem daysBeforeMonth_succ (y m : Int) (h1 : 1 ≤ m) (h2 : m ≤ 11) :
    daysBeforeMonth y (m + 1) = daysBeforeMonth y m + daysInMonth y m := by
  unfold daysBeforeMonth daysInMonth
  interval_cases m <;> cases isLeap y <;> simp

theorem daysBeforeMonth_one (y : Int) : daysBeforeMonth y 1 = 0 := by
  unfold daysBeforeMonth; norm_num

theorem daysBeforeMonth_twelve (y : Int) :
    daysBeforeMonth y 12 = 334 + (if isLeap y then 1 else 0) := by
  unfold daysBeforeMonth; norm_num

theorem daysInMonth_twelve (y : Int) : daysInMonth y 12 = 31 := by
  unfold daysInMonth; norm_num

theorem daysBeforeYear_succ (y : Int) :
    daysBeforeYear (y + 1) =
      daysBeforeYear y + 334 + (if isLeap y then 1 else 0) + 31 := by
  unfold daysBeforeYear isLeap
  split_ifs with h <;>
    simp only [Bool.or_eq_true, Bool.and_eq_true, beq_iff_eq, bne_iff_ne] at h <;>
    omega

theorem monthStart_succ (i : Int) :
    monthStart (i + 1) = monthStart i + daysInMonth (i / 12) (i % 12 + 1) := by
  by_cases hm : i % 12 ≤ 10
  · have h1 : (i + 1) / 12 = i / 12 := by omega
    have h2 : (i + 1) % 12 = i % 12 + 1 := by omega
    unfold monthStart
    rw [h1, h2]
    have hmlo : 1 ≤ i % 12 + 1 := by omega
    have hmhi : i % 12 + 1 ≤ 11 := by omega
    have := daysBeforeMonth_succ (i / 12) (i % 12 + 1) hmlo hmhi
    omega
  · have hm11 : i % 12 = 11 := by omega
    have h1 : (i + 1) / 12 = i / 12 + 1 := by omega
    have h2 : (i + 1) % 12 = 0 := by omega
    unfold monthStart
    rw [h1, h2, hm11]
    norm_num
    have hy := daysBeforeYear_succ (i / 12)
    have hb1 := daysBeforeMonth_one (i / 12 + 1)
    have hb12 := daysBeforeMonth_twelve (i / 12)
    have hd12 := daysInMonth_twelve (i / 12)
    norm_num at hb12 hd12
    omega

theorem monthStart_add (i : Int) (n : Nat) :
    monthStart i + 28 * n ≤ monthStart (i + n) := by
  induction n with
  | zero => simp
  | succ k ih =>
    have hs := monthStart_succ (i + k)
    have hd := daysInMonth_ge ((i + k) / 12) ((i + k) % 12 + 1)
    have : (i : Int) + (k + 1 : Nat) = (i + k) + 1 := by push_cast; ring
    rw [this, hs]
    push_cast
    push_cast at ih
    omega

theorem toDays_eq_monthStart (d : Date) (h1 : 1 ≤ d.month) (h2 : d.month ≤ 12) :
    d.toDays = monthStart (d.year * 12 + (d.month - 1)) + (d.day - 1) := by
  unfold Date.toDays monthStart
  have hdiv : (d.year * 12 + (d.month - 1)) / 12 = d.year := by omega
  have hmod : (d.year * 12 + (d.month - 1)) % 12 = d.month - 1 := by omega
  rw [hdiv, hmod]
  ring_nf

/-- Advancing a valid date by `k ≥ 1` months with an anchor day `≥ 1`
strictly increases the day number and yields a valid date. -/
theorem advance_month_same_day_lt (d : Date) (hd : ValidDate d)
    (k : Int) (hk : 1 ≤ k) (td : Int) (htd : 1 ≤ td) :
    d.toDays < (advance_month_same_day d k (some td)).toDays ∧
      ValidDate (advance_month_same_day d k (some td)) := by
  obtain ⟨hy, hm1, hm2, hd1, hd2⟩ := hd
  set i : Int := d.year * 12 + (d.month - 1) with hi
  set total : Int := i + k with htotal
  have hy' : total / 12 * 12 + total % 12 = total := by omega
  have hm' : 1 ≤ total % 12 + 1 ∧ total % 12 + 1 ≤ 12 := by omega
  have hadv : advance_month_same_day d k (some td) =
      ⟨total / 12, total % 12 + 1,
        min td (daysInMonth (total / 12) (total % 12 + 1))⟩ := by
    unfold advance_month_same_day
    simp [hi, htotal]
  have hdimv := daysInMonth_ge (total / 12) (total % 12 + 1)
  have hday' : 1 ≤ min td (daysInMonth (total / 12) (total % 12 + 1)) := by
    omega
  constructor
  · have hsrc := toDays_eq_monthStart d hm1 hm2
    rw [← hi] at hsrc
    have htgt : (advance_month_same_day d k (some td)).toDays =
        monthStart total +
          (min td (daysInMonth (total / 12) (total % 12 + 1)) - 1) := by
      rw [hadv]
      have hms := toDays_eq_monthStart
        ⟨total / 12, total % 12 + 1,
          min td (daysInMonth (total / 12) (total % 12 + 1))⟩
        (by simpa using hm'.1) (by simpa using hm'.2)
      simp only at hms
      rw [hms]
      have harg : total / 12 * 12 + (total % 12 + 1 - 1) = total := by omega
      rw [harg]
    have hstep : monthStart i + daysInMonth d.year d.month = monthStart (i + 1) := by
      have hsu := monthStart_succ i
      have hdiv : i / 12 = d.year := by omega
      have hmod : i % 12 + 1 = d.month := by omega
      rw [hsu, hdiv, hmod]
    have hmono : monthStart (i + 1) ≤ monthStart total := by
      have hma := monthStart_add (i + 1) (k - 1).toNat
      have hcast : ((k - 1).toNat : Int) = k - 1 := by omega
      rw [hcast] at hma
      have harg : i + 1 + (k - 1) = total := by omega
      rw [harg] at hma
      omega
    rw [hsrc, htgt]
    omega
  · rw [hadv]
    refine ⟨?_, by simpa using hm'.1, by simpa using hm'.2, by simpa using hday', ?_⟩
    · simp only
      omega
    · simp only
      omega

theorem daysInMonth_one (y : Int) : daysInMonth y 1 = 31 := by
  unfold daysInMonth; norm_num

/-- The calendar successor of a valid date is valid and one day later. -/
theorem nextDay_toDays (d : Date) (hd : ValidDate d) :
    (nextDay d).toDays = d.toDays + 1 ∧ ValidDate (nextDay d) := by
  obtain ⟨hy, hm1, hm2, hd1, hd2⟩ := hd
  unfold nextDay
  split_ifs with h1 h2
  · refine ⟨?_, hy, hm1, hm2, by dsimp only; omega, by simpa using h1⟩
    unfold Date.toDays
    simp only
    omega
  · have hdd : d.day = daysInMonth d.year d.month :=
      le_antisymm hd2 (not_lt.mp h1)
    constructor
    · unfold Date.toDays
      simp only
      have := daysBeforeMonth_succ d.year d.month hm1 (by omega)
      omega
    · refine ⟨hy, by dsimp only; omega, by dsimp only; omega,
        by dsimp only; omega, ?_⟩
      have := daysInMonth_ge d.year (d.month + 1)
      dsimp only
      omega
  · have hm12 : d.month = 12 := by omega
    have hdd : d.day = daysInMonth d.year d.month :=
      le_antisymm hd2 (not_lt.mp h1)
    rw [hm12, daysInMonth_twelve] at hdd
    constructor
    · unfold Date.toDays
      simp only
      have h12 := daysBeforeMonth_twelve d.year
      have h1' := daysBeforeMonth_one (d.year + 1)
      have hy' := daysBeforeYear_succ d.year
      rw [hm12]
      omega
    · refine ⟨by dsimp only; omega, by dsimp only; omega,
        by dsimp only; omega, by dsimp only; omega, ?_⟩
      have := daysInMonth_one (d.year + 1)
      dsimp only
      omega

/-- Adding `k` days to a valid date. -/
theorem addDaysPos_toDays (k : Nat) :
    ∀ (d : Date), ValidDate d →
      (addDaysPos d k).toDays = d.toDays + k ∧ ValidDate (addDaysPos d k) := by
  induction k with
  | zero => intro d hd; simpa [addDaysPos] using hd
  | succ n ih =>
    intro d hd
    have h1 := nextDay_toDays d hd
    have h2 := ih (nextDay d) h1.2
    unfold addDaysPos
    refine ⟨?_, h2.2⟩
    rw [h2.1, h1.1]
    push_cast
    ring

/-! ## Normalizer (forecast_engine.py:255-263) -/

/-- `ForecastEngine._normalize_description`: lowercase, delete the filler
substrings, map non-alphanumerics to spaces, collapse whitespace. -/
def normalize_description (description : String) : String :=
  if description = "" then ""
  else
    let lowered := pyLower description
    let stripped := ["payment", "purchase", "transaction", "pos", "debit",
      "credit"].foldl (fun d t => pyReplace d t "") lowered
    let cleaned := String.mk (stripped.toList.map fun c =>
      if c.isAlphanum ∨ c.isWhitespace then c else ' ')
    " ".intercalate (pySplitWs cleaned)

/-! ## Internal-transfer detection (forecast_engine.py:122-155, 290-308) -/

/-- The transfer regexes (forecast_engine.py:122-133).  On the normalized
text (lower-case alphanumerics and single spaces) `\b w \b` matches exactly
when `w` is one of the space-separated tokens, and `\b a \s+ b \b` exactly
when `a` and `b` are adjacent tokens; the regexes are modelled at that token
level. -/
inductive TransferRegex where
  | word (w : String)
  | pair (a b : String)
deriving DecidableEq, Repr

def transfer_regexes : List TransferRegex :=
  [.word "transfer", .word "xfer", .word "ach", .word "autopay",
   .pair "online" "transfer", .pair "online" "payment",
   .pair "deposit" "to", .pair "deposit" "from",
   .pair "payment" "to", .pair "payment" "from"]

def transfer_whitelist : List String :=
  ["payroll", "paycheck", "salary", "bonus", "reimbursement", "refund",
   "interest", "dividend", "royalty", "direct deposit", "mobile deposit",
   "remote deposit"]

def transfer_blacklist : List String :=
  ["account transfer", "internal transfer", "payment thank you",
   "loan payment", "manual db", "bank to bank"]

/-- Adjacent-token pair occurrence. -/
def adjacentPair (a b : String) : List String → Bool
  | x :: y :: rest => (x = a ∧ y = b) || adjacentPair a b (y :: rest)
  | _ => false

def transferRegexMatches (toks : List String) : TransferRegex → Bool
  | .word w => toks.contains w
  | .pair a b => adjacentPair a b toks

/-- Normalization performed inside `_is_internal_transfer`
(forecast_engine.py:295-297): lowercase, `[^a-z0-9\s]` to spaces, collapse. -/
def transferNormalize (description : String) : String :=
  let lowered := pyLower description
  let subbed := String.mk (lowered.toList.map fun c =>
    if ('a' ≤ c ∧ c ≤ 'z') ∨ c.isDigit ∨ c.isWhitespace then c else ' ')
  " ".intercalate (pySplitWs subbed)

/-- The regex loop of `_is_internal_transfer` (forecast_engine.py:302-306):
return on the first regex that matches, whitelisted → not a transfer. -/
def transferRegexLoop (normalized : String) (toks : List String) :
    List TransferRegex → Bool
  | [] => false
  | r :: rest =>
    if transferRegexMatches toks r then
      ¬ transfer_whitelist.any (fun p => strContains normalized p)
    else transferRegexLoop normalized toks rest

/-- `ForecastEngine._is_internal_transfer` (forecast_engine.py:290-308). -/
def is_internal_transfer (description : String) : Bool :=
  if description = "" then false
  else
    let normalized := transferNormalize description
    if transfer_blacklist.any (fun p => strContains normalized p) then true
    else transferRegexLoop normalized (pySplitWs normalized) transfer_regexes

/-! ## Categorizer (forecast_engine.py:537-729) -/

/-- Process-wide alias cache (`self._alias_cache`); lookup finds the most
recent binding, so prepending models dict assignment. -/
def AliasCache := List (String × String)
deriving DecidableEq, Repr

def AliasCache.get (c : AliasCache) (k : String) : Option String :=
  (List.lookup k (c : List (String × String)))

def AliasCache.emp : AliasCache := ([] : List (String × String))

/-- The cleaned description of `_categorize_transaction`
(forecast_engine.py:554-555): lowercase input with `[^a-z0-9\s]` mapped to
spaces and whitespace collapsed. -/
def descCleanOf (descLower : String) : String :=
  " ".intercalate (pySplitWs (String.mk (descLower.toList.map fun c =>
    if ('a' ≤ c ∧ c ≤ 'z') ∨ c.isDigit ∨ c.isWhitespace then c else ' ')))

/-- Keyword cleaning inside `contains_any` (forecast_engine.py:564): NB the
cleaned keyword is stripped but not whitespace-collapsed. -/
def kwClean (kw : String) : String :=
  pyStrip (String.mk ((pyLower kw).toList.map fun c =>
    if ('a' ≤ c ∧ c ≤ 'z') ∨ c.isDigit ∨ c.isWhitespace then c else ' '))

/-- `contains_any` (forecast_engine.py:562-575). -/
def contains_any (descTokens : List String) (descClean : String)
    (keywords : List String) : Bool :=
  keywords.any fun kw =>
    let kc := kwClean kw
    if kc = "" then false
    else
      match pySplitWs kc with
      | [tok] =>
        descTokens.contains tok || descTokens.any (fun t => strContains t tok)
      | _ => strContains descClean kc

def income_keywords : List String :=
  ["paycheck", "salary", "deposit", "income", "direct deposit", "dir dep",
   "payroll", "cashout", "zelle payment from", "remote online deposit",
   "venmo cashout", "cash app transfer from", "payout", "refund",
   "reimbursement", "royalty", "interest payment", "interest credit",
   "dividend", "paypal transfer", "cash rewards", "ach credit",
   "bank interest"]

def rent_keywords : List String :=
  ["rent", "lease", "bilt rent", "bilt payment", "property management"]

def mortgage_keywords : List String :=
  ["mortgage", "home loan", "loan payment", "lendinghome"]

def utilities_keywords : List String :=
  ["electric", "electricity", "water", "sewer", "trash", "utility",
   "utilities", "power", "gas bill", "ladwp", "socalgas", "coned", "con ed",
   "nyseg", "pge", "pg&e", "sdge", "dte energy", "dominion energy",
   "national grid", "duke energy", "xcel energy"]

def internet_keywords : List String :=
  ["internet", "wifi", "broadband", "spectrum", "xfinity", "comcast",
   "cox internet", "cox communications", "verizon fios", "fios", "fiber",
   "starlink", "at&t internet", "att internet", "frontier", "google fiber"]

def phone_keywords : List String :=
  ["phone", "mobile", "cellular", "wireless", "verizon", "t-mobile",
   "tmobile", "at&t", "att ", "sprint", "mint mobile", "visible",
   "cricket wireless", "boost mobile", "google fi", "metro pcs"]

def insurance_keywords : List String :=
  ["insurance", "geico", "state farm", "progressive", "allstate",
   "nationwide", "usaa", "liberty mutual", "anthem", "blue cross",
   "blue shield", "aetna", "metlife", "guardian", "humana",
   "policy premium"]

def car_payment_keywords : List String :=
  ["car payment", "auto loan", "vehicle loan", "auto finance", "car note",
   "ford credit", "toyota financial", "honda financial", "ally auto",
   "capital one auto", "gm financial"]

def subscription_keywords : List String :=
  ["netflix", "spotify", "subscription", "hulu", "disney", "digitalocean",
   "supabase", "openai", "chatgpt", "creem", "max.com", "max streaming",
   "apple.com/bill", "apple.com bill", "apple media", "youtube premium",
   "yt premium", "google storage", "google *", "microsoft 365", "adobe",
   "canva", "notion", "dropbox", "icloud", "patreon", "onlyfans",
   "substack", "calm.com", "headspace"]

def gas_keywords : List String :=
  ["gas station", "fuel", "shell", "chevron", "exxon", "bp ", "bp-",
   "bp\x27", "texaco", "arco", "sunoco", "76 station", "76 gas", "mobil",
   "costco gas", "speedway", "valero", "conoco", "marathon", "circle k",
   "racetrac", "race trac", "pilot travel", "loves travel", "love\x27s",
   "quiktrip", "qt ", "citgo", "caseys", "sheetz", "kum & go",
   "fuel center", "gasoline"]

def grocery_keywords : List String :=
  ["grocery", "grocer", "supermarket", "market", "whole foods",
   "wholefoods", "trader joe", "trader joe\x27s", "aldi", "heb", "h-e-b",
   "sprouts", "wegmans", "meijer", "winco", "food lion", "fresh market",
   "fresh thyme", "grocery outlet", "99 ranch", "hmart", "h-mart",
   "piggly wiggly", "save mart", "smart & final", "shoprite",
   "stop & shop", "stop and shop", "giant food", "giant eagle", "ralphs",
   "publix", "vons", "costco", "bjs wholesale", "bj\x27s", "sams club",
   "sam\x27s club", "metro market", "kroger", "king soopers",
   "fry\x27s food", "dillons", "new seasons", "market basket",
   "fairway market", "food 4 less", "sprouts farmers market",
   "wholefoods market"]

def dining_keywords : List String :=
  ["restaurant", "dining", "cafe", "coffee", "starbucks", "mcdonald",
   "chipotle", "burger", "pizza", "grill", "kitchen", "bar & grill", "pub",
   "brew", "ubereats", "uber eats", "doordash", "door dash", "grubhub",
   "postmates", "seamless", "caviar", "panera", "sweetgreen",
   "shake shack", "in-n-out", "taco", "sushi", "ramen", "chick-fil",
   "popeyes", "wendys", "dunkin", "five guys", "panda express",
   "coffee bean", "peets", "jersey mike", "jimmy john", "del taco",
   "raising cane", "pret a manger", "wingstop", "bojangles"]

def entertainment_keywords : List String :=
  ["movie", "cinema", "concert", "entertainment", "theater", "amc",
   "regal", "ticketmaster", "fandango", "game stop", "gamestop",
   "spotify live", "eventbrite"]

def gift_keywords : List String :=
  ["gift", "present", "christmas", "holiday", "flowers.com",
   "1-800-flowers", "ftd.com"]

def travel_keywords : List String :=
  ["travel", "airline", "hotel", "flight", "vacation", "airbnb", "lyft",
   "uber", "delta", "united", "american airlines", "southwest",
   "spirit air", "jetblue", "alaska airlines", "amtrak", "greyhound",
   "marriott", "hilton", "hyatt", "ihg", "hampton inn", "holiday inn",
   "best western", "enterprise rent", "hertz", "avis", "budget car",
   "turo", "lyft ride", "uber trip", "ride share", "rideshare"]

def shopping_keywords : List String :=
  ["amazon", "store", "shopping", "mall", "target", "walmart", "best buy",
   "ikea", "apple store", "apple.com", "lowes", "home depot", "costco.com",
   "ulta", "sephora", "nordstrom", "macys", "foot locker", "nike",
   "adidas", "lululemon", "rei", "guitar center", "micro center",
   "staples", "office depot", "wayfair", "etsy", "ebay", "poshmark",
   "fiverr", "shein", "temu", "currys", "bloomingdale", "uniqlo"]

def bank_fee_keywords : List String :=
  ["fee", "interest", "finance charge", "overdraft", "nsf",
   "service charge", "maintenance fee", "atm fee", "monthly service",
   "wire fee", "chargeback", "returned item fee", "insufficient funds",
   "late fee", "foreign transaction fee"]

def healthcare_keywords : List String :=
  ["doctor", "hospital", "pharmacy", "medical", "health", "clinic",
   "urgent care", "dental", "dentist", "orthodont", "vision", "optomet",
   "optical", "labcorp", "quest diagnostics", "cvs pharmacy", "walgreens",
   "rite aid", "goodrx", "optum", "kaiser", "sutter health",
   "cleveland clinic"]

/-- `ForecastEngine._categorize_transaction` (forecast_engine.py:537-729).
`amount = none` models both a missing amount and one that fails `float`. -/
def categorize_transaction (cache : AliasCache) (description : String)
    (amount : Option ℚ) : String :=
  let desc := pyStrip description
  if desc = "" then "other"
  else
    let isIncomeAmount := match amount with
      | some a => decide (a > 1/1000000) | none => false
    let isExpenseAmount := match amount with
      | some a => decide (a < -(1/1000000)) | none => false
    let descLower := pyLower desc
    let descClean := descCleanOf descLower
    let descTokens := pySplitWs descClean
    let normalized := normalize_description desc
    let ca := contains_any descTokens descClean
    let chain :=
      if ca income_keywords && ! strContains descLower "security deposit" &&
          ! isExpenseAmount then "income"
      else if isIncomeAmount && ! ca ["payment to", "transfer to"] then "income"
      else if ca rent_keywords then "rent"
      else if ca mortgage_keywords then "mortgage"
      else if ca utilities_keywords then "utilities"
      else if ca internet_keywords then "internet"
      else if ca phone_keywords then "phone"
      else if ca insurance_keywords then "insurance"
      else if ca car_payment_keywords then "car_payment"
      else if ca subscription_keywords then "subscriptions"
      else if ca gas_keywords || pyEndsWith descLower " gas" ||
          strContains descLower " fuel " then "gas"
      else if ca grocery_keywords then "groceries"
      else if ca dining_keywords then "dining"
      else if ca entertainment_keywords then "entertainment"
      else if ca gift_keywords then "gifts"
      else if ca travel_keywords then "travel"
      else if ca shopping_keywords then "shopping"
      else if ca bank_fee_keywords then
        (if isIncomeAmount then "income"
         else if strContains descLower "credit" || strContains descLower "card"
           then "credit_card_fee" else "bank_fee")
      else if ca healthcare_keywords then "healthcare"
      else if isIncomeAmount then "income"
      else if isExpenseAmount && (strContains descLower "payment" ||
          strContains descLower "transfer to" ||
          strContains descLower "withdrawal") then "other"
      else "other"
    match cache.get normalized with
    | some c =>
      if c ≠ "" && ! (isIncomeAmount && c != "income") then c else chain
    | none => chain

/-! ## Sanitizer (forecast_engine.py:310-359) -/

/-- An element of the `transactions` request list.  `isDict = false` models
a non-`dict` entry; `amount = none` models a value `float` cannot coerce;
`date = none` models a missing/`NaT` date. -/
structure RawTx where
  isDict : Bool := true
  date : Option Date := none
  description : String := ""
  amount : Option ℚ := none
deriving DecidableEq, Repr

/-- A sanitized ledger entry. -/
structure CleanTx where
  date : Option Date
  description : String
  amount : ℚ
  category : String
deriving DecidableEq, Repr

/-- The dedup key `(date_key, round(amount, 2), desc_key)`
(forecast_engine.py:339). -/
def sanitizeKey (date : Option Date) (amount : ℚ) (descKey : String) :
    Option Date × ℚ × String :=
  (date, pyRound2 amount, descKey)

/-- Worker for `_sanitize_transactions`, threading the `seen` set and the
process-wide alias cache. -/
def sanitizeAux (cache : AliasCache) (seen : List (Option Date × ℚ × String)) :
    List RawTx → List CleanTx × AliasCache
  | [] => ([], cache)
  | e :: rest =>
    if e.isDict = false then sanitizeAux cache seen rest
    else
      let description := pyStrip e.description
      if is_internal_transfer description then sanitizeAux cache seen rest
      else
        match e.amount with
        | none => sanitizeAux cache seen rest
        | some amountFloat =>
          let normalizedDesc := normalize_description description
          let descKey := if normalizedDesc ≠ "" then normalizedDesc
            else pyLower description
          let key := sanitizeKey e.date amountFloat descKey
          if seen.contains key then sanitizeAux cache seen rest
          else
            let category :=
              if normalizedDesc ≠ "" ∧ (cache.get normalizedDesc).isSome then
                (cache.get normalizedDesc).getD "other"
              else categorize_transaction cache description (some amountFloat)
            let cache' : AliasCache :=
              if normalizedDesc ≠ "" ∧ category ≠ "" ∧ category ≠ "other"
              then ((normalizedDesc, category) ::
                (cache : List (String × String)) : AliasCache)
              else cache
            let entryCat := if category ≠ "" then category else "other"
            let res := sanitizeAux cache' (key :: seen) rest
            (⟨e.date, description, amountFloat, entryCat⟩ :: res.1, res.2)

/-- `ForecastEngine._sanitize_transactions` (forecast_engine.py:310-359). -/
def sanitize_transactions (cache : AliasCache) (transactions : List RawTx) :
    List CleanTx × AliasCache :=
  sanitizeAux cache [] transactions

/-- The dedup key a sanitized entry would produce if fed back
(forecast_engine.py:333-339 applied to an output row). -/
def entryKey (e : CleanTx) : Option Date × ℚ × String :=
  sanitizeKey e.date e.amount
    (if normalize_description e.description ≠ "" then
      normalize_description e.description
    else pyLower e.description)

/-- Re-submitting a sanitized row as a request entry (the claim's
"running the sanitization pass on its own output"). -/
def cleanToRaw (e : CleanTx) : RawTx :=
  { isDict := true, date := e.date, description := e.description,
    amount := some e.amount }

/-! ## Recurrence pattern classification (forecast_engine.py:776-794) -/

inductive Pattern where
  | weekly | biweekly | monthly | quarterly | yearly
deriving DecidableEq, Repr

/-- `ForecastEngine._determine_pattern`: classify by the median interval.
The step/offset metadata the source attaches is recomputed by the projector
and is not modelled. -/
def determine_pattern (intervals : List ℚ) : Option Pattern :=
  if intervals.length = 0 then none
  else
    let medianInterval := npMedian intervals
    if medianInterval ≤ 8 then some .weekly
    else if medianInterval ≤ 16 then some .biweekly
    else if medianInterval ≤ 35 then some .monthly
    else if medianInterval ≤ 95 then some .quarterly
    else if medianInterval ≤ 400 then some .yearly
    else none

/-! ## Seasonality (forecast_engine.py:909-948) -/

def behavior_extended_history_categories : List String :=
  ["rent", "mortgage", "insurance", "internet", "phone", "utilities",
   "income"]

/-- Per-(category, calendar month) factors; lookup defaults to 1. -/
def Seasonality := List ((String × Int) × ℚ)

def Seasonality.get (s : Seasonality) (cat : String) (month : Int) : ℚ :=
  ((List.lookup (cat, month) (s : List ((String × Int) × ℚ)))).getD 1

def Seasonality.emp : Seasonality := ([] : List ((String × Int) × ℚ))

/-- `ForecastEngine._seasonal_adjust` (forecast_engine.py:930-948). -/
def seasonal_adjust (amount : ℚ) (category : String) (targetDate : Date)
    (seasonality : Seasonality) : ℚ :=
  if amount = 0 then 0
  else
    let factor := seasonality.get category targetDate.month
    let factor :=
      if category ∈ behavior_extended_history_categories then 1
      else if amount < 0 then
        let factor := if factor > 3/2 then 3/2 else factor
        if factor < 65/100 then 65/100 else factor
      else
        let factor := if factor < 7/10 then 7/10 else factor
        if factor > 9/5 then 9/5 else factor
    amount * factor

/-! ## Input records -/

/-- A `scheduled` request entry.  The `weekday` field is modelled as an
already-parsed optional integer (the source accepts numeric strings); a
`day` float `NaN` is not modelled. -/
inductive SchedDay where
  | dstr (s : String)
  | dint (n : Int)
deriving DecidableEq, Repr

structure Sched where
  pattern : String := "monthly"
  amount : Option ℚ := none
  description : String := ""
  weekday : Option Int := none
  day : Option SchedDay := none
  date : Option Date := none
  last_date : Option Date := none
deriving DecidableEq, Repr

/-- A recurring template (forecast_engine.py:893-905).  `offsetMonths`
models the optional `DateOffset` attached by template augmentation
(months; a year offset is 12 months, identically clamped). -/
structure Template where
  description : String := ""
  normalized_description : String := ""
  amount : ℚ := 0
  last_amount : ℚ := 0
  category : String := "other"
  pattern : String := ""
  weekday : Int := 0
  day : Int := 1
  last_date : Date
  std_amount : ℚ := 0
  ttype : String := ""
  offsetMonths : Option Int := none
deriving DecidableEq, Repr

/-- A projected event row (`date` is the event's day number). -/
structure ProjEvent where
  date : Int
  amount : ℚ
  category : String
  description : String
  source : String := "recurring"
deriving DecidableEq, Repr

/-! ## Recurring projector (forecast_engine.py:1650-1792)

Habit-insight assembly is presentation-only and not modelled.  Each loop is
fuelled; the callers pass `(end - anchor).toNat + 2`, which dominates the
number of iterations of every loop whose date strictly grows day by day, so
the fuelled recursion equals the source loop wherever the latter
terminates. -/

def rent_categories : List String := ["rent"]

def subscription_categories : List String := ["subscriptions", "subscription"]

/-- Skip phase of the weekly/biweekly branch (forecast_engine.py:1701-1702):
advance by `step` days until reaching `startD`.  `none` models a loop that
was still running when the fuel ran out. -/
def weeklySkip (startD : Int) (step : Nat) : Nat → Date → Option Date
  | fuel, current =>
    if startD ≤ current.toDays then some current
    else
      match fuel with
      | 0 => none
      | f + 1 => weeklySkip startD step f (addDaysPos current step)

/-- Emission phase of the weekly/biweekly branch
(forecast_engine.py:1704-1714). -/
def weeklyEmit (tmpl : Template) (seasonality : Seasonality)
    (endD : Int) (step : Nat) : Nat → Date → List ProjEvent
  | fuel, current =>
    if current.toDays ≤ endD then
      { date := current.toDays,
        amount := seasonal_adjust tmpl.amount tmpl.category current
          seasonality,
        category := tmpl.category,
        description := tmpl.description ++ " (projected)",
        source := "recurring" } ::
        (match fuel with
         | 0 => []
         | f + 1 =>
           weeklyEmit tmpl seasonality endD step f (addDaysPos current step))
    else []

/-- Skip phase of the anchored monthly (rent/subscription) branch
(forecast_engine.py:1733-1736). -/
def monthlyAnchoredSkip (startD td : Int) : Nat → Date → Option Date
  | fuel, next =>
    if startD ≤ next.toDays then some next
    else
      match fuel with
      | 0 => none
      | f + 1 =>
        monthlyAnchoredSkip startD td f (advance_month_same_day next 1 (some td))

/-- Emission phase of the anchored monthly (rent/subscription) branch
(forecast_engine.py:1737-1755): dates with the anchored day-of-month, rent
escalated 3 % per whole elapsed year, subscriptions fixed at
`last_amount`. -/
def monthlyAnchoredEmit (lastAmount : ℚ) (isRent : Bool) (base : Date)
    (endD td : Int) : Nat → Date → List (Date × ℚ)
  | fuel, next =>
    if next.toDays ≤ endD then
      let monthsSince : Int :=
        max ((next.year - base.year) * 12 + (next.month - base.month)) 0
      let projectedAmount :=
        if isRent then
          pyRound2 (lastAmount * (103/100) ^ (monthsSince / 12).toNat)
        else pyRound2 lastAmount
      (next, projectedAmount) ::
        (match fuel with
         | 0 => []
         | f + 1 =>
           monthlyAnchoredEmit lastAmount isRent base endD td f
             (advance_month_same_day next 1 (some td)))
    else []

/-- Skip phase of the generic monthly/quarterly/yearly branch
(forecast_engine.py:1761-1765); the non-increase guard `break` falls through
to emission with the current date. -/
def genericSkip (startD k : Int) : Nat → Date → Date
  | fuel, next =>
    if startD ≤ next.toDays then next
    else
      let cand := advance_month_same_day next k (some next.day)
      if cand.toDays ≤ next.toDays then next
      else
        match fuel with
        | 0 => next
        | f + 1 => genericSkip startD k f cand

/-- Emission phase of the generic monthly/quarterly/yearly branch
(forecast_engine.py:1767-1780). -/
def genericEmit (tmpl : Template) (seasonality : Seasonality)
    (endD k : Int) : Nat → Date → List ProjEvent
  | fuel, next =>
    if next.toDays ≤ endD then
      let ev : ProjEvent :=
        { date := next.toDays,
          amount := seasonal_adjust tmpl.amount tmpl.category next seasonality,
          category := tmpl.category,
          description := tmpl.description ++ " (projected)",
          source := "recurring" }
      let cand := advance_month_same_day next k (some next.day)
      ev ::
        (if cand.toDays ≤ next.toDays then []
         else
           match fuel with
           | 0 => []
           | f + 1 => genericEmit tmpl seasonality endD k f cand)
    else []

/-- Events the recurring projector emits for one template
(forecast_engine.py:1680-1785, event rows only). -/
def templateEvents (tmpl : Template) (startD : Date) (horizon : Int)
    (seasonality : Seasonality) (schedNorm : List String)
    (schedSigs : List (String × Int)) : List ProjEvent :=
  if tmpl.normalized_description ∈ schedNorm then []
  else
    let polarity : Int := if tmpl.amount > 0 then 1 else -1
    if (tmpl.category, polarity) ∈ schedSigs then []
    else
      let pattern := pyLower tmpl.pattern
      if pattern = "" then []
      else
        let categoryKey := pyLower tmpl.category
        let current := tmpl.last_date
        let endD := startD.toDays + horizon
        let fuel := (endD - current.toDays).toNat + 2
        if pattern = "weekly" ∨ pattern = "biweekly" then
          let step : Nat := if pattern = "weekly" then 7 else 14
          match weeklySkip startD.toDays step fuel (addDaysPos current step) with
          | none => []
          | some c => weeklyEmit tmpl seasonality endD step fuel c
        else if pattern = "monthly" ∨ pattern = "quarterly" ∨
            pattern = "yearly" then
          if pattern = "monthly" ∧
              (categoryKey ∈ rent_categories ∨
               categoryKey ∈ subscription_categories) then
            let base := current
            let td := if tmpl.day ≠ 0 then tmpl.day else base.day
            let isRent := categoryKey ∈ rent_categories
            let next0 := advance_month_same_day base 1 (some td)
            match monthlyAnchoredSkip startD.toDays td fuel next0 with
            | none => []
            | some nx =>
              (monthlyAnchoredEmit tmpl.last_amount isRent base endD td fuel
                  nx).map fun p =>
                { date := p.1.toDays, amount := p.2,
                  category := tmpl.category,
                  description := tmpl.description ++ " (projected)",
                  source := "recurring" }
          else
            let k := tmpl.offsetMonths.getD
              (if pattern = "monthly" then 1
               else if pattern = "quarterly" then 3 else 12)
            let next0 := advance_month_same_day current k (some current.day)
            let nx := genericSkip startD.toDays k fuel next0
            genericEmit tmpl seasonality endD k fuel nx
        else []

/-- `ForecastEngine._generate_recurring_events`
(forecast_engine.py:1650-1792), event rows only. -/
def generate_recurring_events (cache : AliasCache) (templates : List Template)
    (startD : Date) (horizon : Int) (seasonality : Seasonality)
    (scheduled : List Sched) : List ProjEvent :=
  if templates = [] then []
  else
    let schedNorm := (scheduled.filter (fun s => s.description ≠ "")).map
      (fun s => normalize_description s.description)
    let schedSigs := scheduled.map fun s =>
      let amount := s.amount.getD 0
      let polarity : Int := if amount > 0 then 1 else if amount < 0 then -1 else 0
      (categorize_transaction cache s.description none, polarity)
    templates.flatMap fun tmpl =>
      templateEvents tmpl startD horizon seasonality schedNorm schedSigs

/-! ## Baseline, start date, seasonality factors
(forecast_engine.py:758-774, 909-928, 2282-2301) -/

/-- A row of the baseline/history frame (sanitized transaction with the
running-balance column of `_generate_baseline`). -/
structure BaseRow where
  date : Option Date
  description : String
  amount : ℚ
  category : String
  balance : ℚ
deriving DecidableEq, Repr

/-- `sort_values('date')` ordering: missing dates (`NaT`) sort last. -/
def dateLeOpt (a b : Option Date) : Bool :=
  match a, b with
  | some x, some y => x.toDays ≤ y.toDays
  | some _, none => true
  | none, some _ => false
  | none, none => true

/-- Balance column worker: running balance `opening + cumsum`. -/
def baselineBalances (opening acc : ℚ) : List CleanTx → List BaseRow
  | [] => []
  | t :: rest =>
    let acc' := acc + t.amount
    ⟨t.date, t.description, t.amount, t.category, opening + acc'⟩ ::
      baselineBalances opening acc' rest

/-- `ForecastEngine._generate_baseline` (forecast_engine.py:758-774): sort
by date, attach `balance = opening_balance + cumsum(amount)`. -/
def generate_baseline (opening : ℚ) (cleaned : List CleanTx) : List BaseRow :=
  baselineBalances opening 0
    (List.insertionSort (fun a b => dateLeOpt a.date b.date = true) cleaned)

/-- The start-date computation of `run_forecast`
(forecast_engine.py:2282-2296): `max(today, last_history_date + 1 day)`,
falling back to `today` without any dated transaction. -/
def compute_start_date (today : Date) (cleaned : List CleanTx) : Date :=
  if cleaned = [] then today
  else
    let ds := cleaned.filterMap (·.date)
    match ds with
    | [] => today
    | d0 :: drest =>
      let lastHist := drest.foldl
        (fun acc d => if acc.toDays < d.toDays then d else acc) d0
      let candidate := nextDay lastHist
      if today.toDays < candidate.toDays then candidate else today

/-- Month of a history row (history rows always carry a date). -/
def rowMonth (r : BaseRow) : Int :=
  match r.date with
  | some d => d.month
  | none => 0

/-- `ForecastEngine._seasonality_factors` (forecast_engine.py:909-928);
the result is consulted only through `Seasonality.get`, so group order is
irrelevant. -/
def seasonality_factors (rows : List BaseRow) : Seasonality :=
  ((rows.map (·.category)).dedup.flatMap fun cat =>
    let catRows := rows.filter (fun r => r.category = cat)
    let baseAvg := listMean (catRows.map (fun r => |r.amount|))
    if baseAvg = 0 then []
    else
      (catRows.map rowMonth).dedup.filterMap fun m =>
        let monthAvg :=
          listMean (((catRows.filter (fun r => rowMonth r = m)).map
            (fun r => |r.amount|)))
        if monthAvg ≠ 0 then some ((cat, m), monthAvg / baseAvg)
        else none : List ((String × Int) × ℚ))

/-! ## Scheduled-event expansion (forecast_engine.py:451-535) -/

structure SchedEvent where
  date : Int
  amount : ℚ
  description : String
deriving DecidableEq, Repr

def pyIsDigits (s : String) : Bool :=
  s ≠ "" && s.toList.all Char.isDigit

def pyDigitsToInt (s : String) : Int :=
  s.toList.foldl (fun a c => a * 10 + ((c.toNat : Int) - 48)) 0

/-- Weekly/biweekly scheduled emission (forecast_engine.py:498-509). -/
def schedWeeklyEmit (amount : ℚ) (desc : String) (endD : Int) (step : Nat) :
    Nat → Date → List SchedEvent
  | fuel, current =>
    if current.toDays ≤ endD then
      ⟨current.toDays, amount, desc⟩ ::
        (match fuel with
         | 0 => []
         | f + 1 =>
           schedWeeklyEmit amount desc endD step f (addDaysPos current step))
    else []

/-- Monthly scheduled skip loop (forecast_engine.py:512-517); the
non-increase `break` falls through with the current anchor. -/
def schedMonthlySkip (startD : Int) : Nat → Date → Date
  | fuel, current =>
    if startD ≤ current.toDays then current
    else
      let cand := advance_month_same_day current 1 (some current.day)
      if cand.toDays ≤ current.toDays then current
      else
        match fuel with
        | 0 => current
        | f + 1 => schedMonthlySkip startD f cand

/-- Monthly scheduled emission (forecast_engine.py:518-527). -/
def schedMonthlyEmit (amount : ℚ) (desc : String) (useLast : Bool)
    (dayValue startD endD : Int) : Nat → Date → List SchedEvent
  | fuel, current =>
    if current.toDays ≤ endD then
      let monthLastDay := daysInMonth current.year current.month
      let monthDay := if useLast then monthLastDay else min dayValue monthLastDay
      let eventDate : Date := ⟨current.year, current.month, monthDay⟩
      let emitted : List SchedEvent :=
        if startD ≤ eventDate.toDays ∧ eventDate.toDays ≤ endD then
          [⟨eventDate.toDays, amount, desc⟩]
        else []
      let cand := advance_month_same_day current 1 (some current.day)
      emitted ++
        (if cand.toDays ≤ current.toDays then []
         else
           match fuel with
           | 0 => []
           | f + 1 => schedMonthlyEmit amount desc useLast dayValue startD endD f cand)
    else []

/-- `ForecastEngine._expand_scheduled` (forecast_engine.py:451-535). -/
def expand_scheduled (scheduled : List Sched) (startD : Date) (horizon : Int) :
    List SchedEvent :=
  let horizonEnd := startD.toDays + horizon
  scheduled.flatMap fun s =>
    let pattern := pyLower (if s.pattern = "" then "monthly" else s.pattern)
    match s.amount with
    | none => []
    | some amount =>
      let desc := pyStrip s.description
      let weekday := s.weekday.map (· % 7)
      let dayParse : Bool × Int :=
        match s.day with
        | none => (false, 1)
        | some (.dstr t) =>
          let ds := pyStrip (pyLower t)
          if ds = "last" ∨ ds = "end" then (true, 1)
          else if pyIsDigits ds then (false, max (pyDigitsToInt ds) 1)
          else (false, 1)
        | some (.dint n) => if n ≤ 0 then (true, 1) else (false, n)
      let useLast := dayParse.1
      let dayValue := dayParse.2
      let anchor : Date :=
        match s.date with
        | some d => d
        | none =>
          match s.last_date with
          | some d => d
          | none => startD
      if pattern = "weekly" then
        match weekday with
        | some w =>
          let firstOffset := (w - startD.toDays % 7) % 7
          let c0 := addDaysPos startD firstOffset.toNat
          schedWeeklyEmit amount desc horizonEnd 7
            ((horizonEnd - startD.toDays).toNat + 9) c0
        | none => []
      else if pattern = "biweekly" then
        match weekday with
        | some w =>
          let firstOffset := (w - startD.toDays % 7) % 7
          let c0 := addDaysPos startD firstOffset.toNat
          schedWeeklyEmit amount desc horizonEnd 14
            ((horizonEnd - startD.toDays).toNat + 9) c0
        | none => []
      else if pattern = "monthly" then
        let fuel := (horizonEnd - min anchor.toDays startD.toDays).toNat + 2
        let cur := schedMonthlySkip startD.toDays fuel anchor
        schedMonthlyEmit amount desc useLast dayValue startD.toDays horizonEnd
          fuel cur
      else if pattern = "oneoff" then
        match s.date with
        | some d =>
          if startD.toDays ≤ d.toDays ∧ d.toDays ≤ horizonEnd then
            [⟨d.toDays, amount, desc⟩]
          else []
        | none => []
      else []

/-! ## Combined event rows (forecast_engine.py:2367-2425)

In mode `recurring` the behavior and Prophet frames are the empty
projection (forecast_engine.py:2306-2308, 2348-2356), so the combined list
is historical + scheduled + recurring rows. -/

structure CombinedTx where
  date : Option Int
  amount : ℚ
  category : String
  description : String
  ttype : String
  projection_source : Option String := none
deriving DecidableEq, Repr

def build_all_transactions (cache : AliasCache) (txdf : List BaseRow)
    (sched : List SchedEvent) (recurringEv : List ProjEvent) :
    List CombinedTx :=
  (txdf.map fun r =>
    { date := r.date.map Date.toDays, amount := r.amount,
      category := r.category, description := r.description,
      ttype := "historical" }) ++
  (sched.map fun r =>
    { date := some r.date, amount := r.amount,
      category := categorize_transaction cache r.description (some r.amount),
      description := r.description, ttype := "scheduled" }) ++
  (recurringEv.map fun r =>
    { date := some r.date, amount := r.amount, category := r.category,
      description := r.description, ttype := "forecast",
      projection_source := some r.source })

/-! ## Reconciliation (forecast_engine.py:157-243, 950-1199) -/

/-- One entry of `self.reconciliation_categories`
(forecast_engine.py:157-240); no configured category sets `min_scale`, so
that dead branch (forecast_engine.py:1151-1156) is not modelled. -/
structure ReconConfig where
  category : String
  polarity : String
  min_abs : ℚ
  satisfied_ratio : ℚ
  only_increase : Bool := false
  max_scale : ℚ
  interval_days : Int
  max_events : Int
deriving DecidableEq, Repr

def reconciliation_categories : List ReconConfig :=
  [⟨"income", "positive", 200, 93/100, true, 4, 14, 3⟩,
   ⟨"rent", "negative", 400, 85/100, true, 7/2, 30, 2⟩,
   ⟨"groceries", "negative", 60, 55/100, false, 9/5, 7, 4⟩,
   ⟨"dining", "negative", 40, 50/100, false, 19/10, 7, 4⟩,
   ⟨"bank_fee", "negative", 20, 50/100, false, 3, 30, 1⟩,
   ⟨"gas", "negative", 40, 60/100, false, 17/10, 14, 3⟩,
   ⟨"shopping", "negative", 60, 50/100, false, 17/10, 14, 3⟩,
   ⟨"subscriptions", "negative", 40, 70/100, false, 13/5, 30, 2⟩,
   ⟨"healthcare", "negative", 80, 45/100, false, 11/5, 30, 2⟩,
   ⟨"other", "any", 80, 55/100, false, 12/5, 14, 4⟩]

/-- `self.reconciliation_max_injection_multiplier`
(forecast_engine.py:242-243). -/
def reconciliation_max_injection_multiplier : ℚ := 2

/-- Consecutive differences of a list (pandas `.diff().dropna()`). -/
def consecutiveDiffs : List Int → List Int
  | a :: b :: rest => (b - a) :: consecutiveDiffs (b :: rest)
  | _ => []

/-- Absolute month index used to model `resample('MS')` month bins. -/
def monthIndexOf (d : Date) : Int := d.year * 12 + (d.month - 1)

/-- `ForecastEngine._compute_expected_total` (forecast_engine.py:950-1029).
`resample('MS').sum()` followed by the `|total| > 1e-6` filter equals
grouping the (chronologically sorted) rows by present month and filtering,
since empty month bins resample to zero sums. -/
def compute_expected_total (history : List BaseRow) (category : String)
    (horizon : Int) (polarity : String) : Option ℚ :=
  if history = [] then none
  else
    let catDf := history.filter (fun r => r.category = category)
    if catDf = [] then none
    else
      let catDf :=
        if polarity = "positive" then
          catDf.filter (fun r => r.amount > 1/1000000)
        else if polarity = "negative" then
          catDf.filter (fun r => r.amount < -(1/1000000))
        else catDf.filter (fun r => |r.amount| > 1/1000000)
      if catDf = [] then none
      else
        let rows := catDf.filterMap (fun r => r.date.map fun d => (d, r.amount))
        if rows = [] then none
        else
          let catSeries := List.insertionSort
            (fun a b => a.1.toDays ≤ b.1.toDays) rows
          let months := (catSeries.map (fun p => monthIndexOf p.1)).dedup
          let monthlyTotals := (months.map fun m =>
            ((catSeries.filter (fun p => monthIndexOf p.1 = m)).map
              (·.2)).sum).filter (fun v => |v| > 1/1000000)
          let monthlyBaseline : ℚ :=
            if monthlyTotals ≠ [] then
              npMedian (monthlyTotals.drop
                (monthlyTotals.length - min monthlyTotals.length 6))
            else
              let aggregateTotal := (catSeries.map (·.2)).sum
              let monthsQ : ℚ := max ((catSeries.length : ℚ) / 4) 1
              aggregateTotal / monthsQ
          let horizonScale : ℚ := max ((horizon : ℚ) / 30) (1/2)
          let monthlyProjection := monthlyBaseline * horizonScale
          let lookbackDays : Int := max 90 (horizon * 2)
          let dayList := catSeries.map (fun p => p.1.toDays)
          let maxDay := dayList.max?.getD 0
          let minDay := dayList.min?.getD 0
          let recentCutoff := maxDay - lookbackDays
          let recentSeries := catSeries.filter
            (fun p => recentCutoff ≤ p.1.toDays)
          let recentCands : List ℚ :=
            if recentSeries = [] then []
            else
              let rdays := recentSeries.map (fun p => p.1.toDays)
              let recentSpan : Int :=
                max (rdays.max?.getD 0 - rdays.min?.getD 0 + 1) 1
              let recentDaily :=
                ((recentSeries.map (·.2)).sum) / (recentSpan : ℚ)
              let diffs := consecutiveDiffs rdays
              let gapCand : List ℚ :=
                if diffs = [] then []
                else
                  let medianGap : ℚ :=
                    max (npMedian (diffs.map (fun n => (n : ℚ)))) 1
                  let projectedEvents : Int :=
                    max ⌈(horizon : ℚ) / medianGap⌉ 1
                  let medianAmount := npMedian (recentSeries.map (·.2))
                  [medianAmount * (projectedEvents : ℚ)]
              recentDaily * (horizon : ℚ) :: gapCand
          let totalSpan : Int := max (maxDay - minDay + 1) 1
          let spanCand : List ℚ :=
            [((catSeries.map (·.2)).sum) / (totalSpan : ℚ) * (horizon : ℚ)]
          let candidates :=
            (monthlyProjection :: recentCands ++ spanCand).filter
              (fun v => |v| > 1/1000000)
          if candidates = [] then none
          else
            let baseline :=
              if candidates.length > 1 then npMedian candidates
              else candidates.headD 0
            let baseline :=
              if polarity = "positive" then
                max baseline
                  (if candidates.length > 1 then npPercentile candidates 70
                   else baseline)
              else if polarity = "negative" then
                min baseline
                  (if candidates.length > 1 then npPercentile candidates 30
                   else baseline)
              else baseline
            some baseline

/-- The 120-day pre-start absolute history total used as a cap basis
(forecast_engine.py:1049-1057). -/
def recent_total_abs (history : List BaseRow) (startD : Int)
    (category : String) : ℚ :=
  let catHist := history.filter (fun r => r.category = category)
  if catHist = [] then 0
  else
    let w := catHist.filter fun r =>
      match r.date with
      | some d => startD - 120 ≤ d.toDays ∧ d.toDays < startD
      | none => false
    if w = [] then 0 else (w.map (fun r => |r.amount|)).sum

/-- `_compute_capped_event_amount` (forecast_engine.py:1045-1077).  The
second component models whether `warnings.warn` fires
(forecast_engine.py:1069-1075). -/
def compute_capped_event_amount (history : List BaseRow) (startD : Int)
    (category : String) (totalAmount : ℚ) (eventsCount : Int) : ℚ × Bool :=
  if eventsCount ≤ 0 then (0, false)
  else
    let recentTotalAbs := recent_total_abs history startD category
    let rawEventAmount := totalAmount / (eventsCount : ℚ)
    let capBasis := max |totalAmount| (max recentTotalAbs 1)
    let maxAllowed := capBasis * reconciliation_max_injection_multiplier
    let cappedEventAmount :=
      if totalAmount = 0 then 0
      else
        (if totalAmount < 0 then (-1 : ℚ) else 1) *
          min |rawEventAmount| maxAllowed
    (cappedEventAmount,
     decide (|rawEventAmount| > |cappedEventAmount| + 1/1000000000))

/-- Forecast-row mask of `_apply_category_targets`
(forecast_engine.py:1035). -/
def isForecastRow (startD : Int) (r : CombinedTx) : Bool :=
  r.ttype = "forecast" &&
    (match r.date with
     | some d => startD ≤ d
     | none => false)

/-- The `other`-category fallback target (forecast_engine.py:1083-1091):
`resample('MS').mean()` over the 120-day pre-start window, `tail(3)` of the
calendar-month bins (empty bins are NaN and skipped by `.mean()`); the
window's last month always holds its max date, so at least one bin is
non-empty. -/
def otherFallbackTarget (history : List BaseRow) (startD : Int)
    (horizon : Int) : Option ℚ :=
  let otherHist := history.filter (fun r => r.category = "other")
  if otherHist = [] then none
  else
    let w := otherHist.filterMap fun r =>
      match r.date with
      | some d =>
        if startD - 120 ≤ d.toDays ∧ d.toDays < startD then some (d, r.amount)
        else none
      | none => none
    if w = [] then none
    else
      let mIdxs := w.map (fun p => monthIndexOf p.1)
      let mMin := mIdxs.min?.getD 0
      let mMax := mIdxs.max?.getD 0
      let bins : List (Option ℚ) :=
        (List.range (mMax - mMin + 1).toNat).map fun j =>
          let m := mMin + (j : Int)
          let g := (w.filter (fun p => monthIndexOf p.1 = m)).map (·.2)
          if g = [] then none else some (listMean g)
      let tail3 := bins.drop (bins.length - min bins.length 3)
      let vals := tail3.filterMap id
      if vals = [] then none
      else some (listMean vals * max ((horizon : ℚ) / 30) (1/2) * (1/2))

/-- The synthetic rows both injection sites of the category loop build
(forecast_engine.py:1093-1113 and 1170-1190, identical up to the
description suffix and the distributed total). -/
def injectionRows (history : List BaseRow) (startD horizon : Int)
    (config : ReconConfig) (total : ℚ) (label : String) :
    List CombinedTx :=
  let intervalDays := max config.interval_days 1
  let maxEvents := max config.max_events 1
  let estimated0 : Int := ⌈(horizon : ℚ) / (intervalDays : ℚ)⌉
  let estimated := if estimated0 ≤ 0 then 1 else estimated0
  let numEvents := max 1 (min maxEvents estimated)
  let eventAmount :=
    (compute_capped_event_amount history startD config.category total
      numEvents).1
  (List.range numEvents.toNat).map fun (idx : Nat) =>
    ({ date := some (startD +
          min ((idx : Int) * intervalDays) (max (horizon - 1) 0)),
       amount := eventAmount, category := config.category,
       description := pyTitle (underscoreToSpace config.category) ++ label,
       ttype := "forecast",
       projection_source := some "reconciliation" } : CombinedTx)

/-- The rescale tail of the category loop body
(forecast_engine.py:1124-1194): `rows` and `predictedTotal` are the
(possibly zeroed) forecast rows and their total. -/
def reconcileScale (history : List BaseRow) (startD horizon : Int)
    (config : ReconConfig) (targetTotal : ℚ)
    (rows injected : List CombinedTx)
    (predictedTotal requiredMagnitude : ℚ) :
    List CombinedTx × List CombinedTx :=
  let category := config.category
  let catMask := fun r => isForecastRow startD r && r.category = category
  let scale0 := targetTotal / predictedTotal
  if config.only_increase ∧
      |predictedTotal * scale0| + 1/1000000 < |predictedTotal| then
    (rows, injected)
  else
    let scale :=
      if scale0 > 0 then min scale0 config.max_scale
      else max scale0 (-config.max_scale)
    let rows := rows.map fun r =>
      if catMask r then { r with amount := r.amount * scale } else r
    let adjustedTotal :=
      if rows.any catMask then
        ((rows.filter catMask).map (·.amount)).sum
      else 0
    if adjustedTotal * targetTotal > 0 ∧
        |adjustedTotal| ≥ requiredMagnitude then (rows, injected)
    else
      let residual := targetTotal - adjustedTotal
      if |residual| < 1/1000000 then (rows, injected)
      else if config.only_increase ∧ residual * targetTotal ≤ 0 then
        (rows, injected)
      else
        (rows, injected ++ injectionRows history startD horizon config
          residual " reconciliation")

/-- The category loop body once a target total exists
(forecast_engine.py:1092-1194). -/
def reconcileWithTarget (history : List BaseRow) (startD horizon : Int)
    (state : List CombinedTx × List CombinedTx) (config : ReconConfig)
    (targetTotal : ℚ) : List CombinedTx × List CombinedTx :=
  let rows := state.1
  let injected := state.2
  let category := config.category
  if |targetTotal| < config.min_abs then (rows, injected)
  else
    let catMask := fun r => isForecastRow startD r && r.category = category
    let maskAny := rows.any catMask
    let predicted0 :=
      if maskAny then ((rows.filter catMask).map (·.amount)).sum else 0
    let zeroed := maskAny ∧ predicted0 * targetTotal < 0
    let rows :=
      if zeroed then
        rows.map fun r => if catMask r then { r with amount := 0 } else r
      else rows
    let predictedTotal := if zeroed then 0 else predicted0
    let requiredMagnitude := |targetTotal| * config.satisfied_ratio
    if predictedTotal * targetTotal > 0 ∧
        |predictedTotal| ≥ requiredMagnitude then (rows, injected)
    else if |predictedTotal| < 1/1000000 then
      if maskAny then
        let count : Int := max (rows.countP catMask : Int) 1
        let perEntry := targetTotal / (count : ℚ)
        (rows.map fun r =>
          if catMask r then { r with amount := perEntry } else r, injected)
      else
        (rows, injected ++ injectionRows history startD horizon config
          targetTotal " baseline adjustment")
    else
      reconcileScale history startD horizon config targetTotal rows injected
        predictedTotal requiredMagnitude

/-- Per-category reconciliation step (loop body of
forecast_engine.py:1079-1194), acting on (current rows, injected rows). -/
def reconcileCategory (history : List BaseRow) (startD horizon : Int)
    (state : List CombinedTx × List CombinedTx) (config : ReconConfig) :
    List CombinedTx × List CombinedTx :=
  let target0 := compute_expected_total history config.category horizon
    config.polarity
  let target1 :=
    if target0 = none ∧ config.category = "other" then
      otherFallbackTarget history startD horizon
    else target0
  match target1 with
  | none => (state.1, state.2)
  | some targetTotal =>
    reconcileWithTarget history startD horizon state config targetTotal

/-- `ForecastEngine._apply_category_targets` (forecast_engine.py:1031-1199);
the injected rows are concatenated at the end
(forecast_engine.py:1196-1197). -/
def apply_category_targets (combined : List CombinedTx)
    (history : List BaseRow) (startD horizon : Int) : List CombinedTx :=
  if combined = [] then combined
  else if ¬ combined.any (isForecastRow startD) then combined
  else if history = [] then combined
  else
    let final := reconciliation_categories.foldl
      (reconcileCategory history startD horizon) (combined, [])
    final.1 ++ final.2

/-! ## Composer (forecast_engine.py:2427-2452) -/

/-- `sort_values('date')` on the combined frame (`NaT` last).  The source
sort is an unstable quicksort; a stable merge sort realizes one admissible
tie order. -/
def combinedDateLe (a b : CombinedTx) : Prop :=
  match a.date, b.date with
  | some x, some y => x ≤ y
  | some _, none => True
  | none, some _ => False
  | none, none => True

instance : DecidableRel combinedDateLe := by
  intro a b
  unfold combinedDateLe
  rcases a.date with _ | x <;> rcases b.date with _ | y <;> infer_instance

def sortCombined (l : List CombinedTx) : List CombinedTx :=
  List.insertionSort combinedDateLe l

/-- The running-balance column (forecast_engine.py:2437):
`balance = opening_balance + amount.cumsum()`. -/
def addBalances (opening : ℚ) (acc : ℚ) :
    List CombinedTx → List (CombinedTx × ℚ)
  | [] => []
  | t :: rest =>
    let acc' := acc + t.amount
    (t, opening + acc') :: addBalances opening acc' rest

structure DailyEntry where
  date : Int
  amount : ℚ
  balance : ℚ
deriving DecidableEq, Repr

/-- `groupby('date').agg(amount sum, balance last)`
(forecast_engine.py:2440-2443); `groupby` drops `NaT` keys and the group
keys come out sorted. -/
def daily_summary (rows : List (CombinedTx × ℚ)) : List DailyEntry :=
  (List.insertionSort (· ≤ ·) ((rows.filterMap (fun p => p.1.date)).dedup)).map
    fun d =>
      let g := rows.filter (fun p => p.1.date = some d)
      { date := d, amount := (g.map (fun p => p.1.amount)).sum,
        balance := ((g.map (·.2)).getLast?).getD 0 }

/-- The composition tail of `run_forecast` (forecast_engine.py:2427-2459):
sort, reconcile, re-sort, attach running balances, group into the daily
summary; with no composed events, a single flat row at the start date
(forecast_engine.py:2444-2459). -/
def compose_forecast (opening : ℚ) (history : List BaseRow) (startD : Date)
    (horizon : Int) (allTransactions : List CombinedTx) :
    List DailyEntry × List (CombinedTx × ℚ) :=
  if allTransactions ≠ [] then
    let sorted := sortCombined allTransactions
    let reconciled := apply_category_targets sorted history startD.toDays horizon
    let sorted2 := sortCombined reconciled
    let withBal := addBalances opening 0 sorted2
    (daily_summary withBal, withBal)
  else
    ([{ date := startD.toDays, amount := 0, balance := opening }],
     [({ date := some startD.toDays, amount := 0, category := "other",
         description := "Balance projection", ttype := "forecast",
         projection_source := none }, opening)])

/-- Output of a `run_forecast` call restricted to the fields the verified
claims speak about (summary statistics and calendar view are
presentation). -/
structure RunOutput where
  start_date : Date
  forecast : List DailyEntry
  transactions : List (CombinedTx × ℚ)
deriving DecidableEq, Repr

/-- `ForecastEngine.run_forecast` with `method = "recurring"`
(forecast_engine.py:2258-2452).  In that mode the behavior and Prophet
frames are the empty projection (forecast_engine.py:2306-2308, 2351,
2356).  `templates` stands for the output of
`_detect_recurring_transactions` followed by
`_augment_recurring_templates`; both return their input unchanged on an
empty history (forecast_engine.py:799-800, 2151-2152).  Those two
detectors are not embedded: their amount-stability test compares a sample
standard deviation, which is irrational and outside this rational model. -/
def run_forecast_recurring (cache : AliasCache) (templates : List Template)
    (opening : ℚ) (transactions : List RawTx) (scheduled : List Sched)
    (horizon : Int) (today : Date) : RunOutput :=
  let san := sanitize_transactions cache transactions
  let cleaned := san.1
  let cache' := san.2
  let startD := compute_start_date today cleaned
  let txdf := generate_baseline opening cleaned
  let history := txdf.filter fun r =>
    match r.date with
    | some d => d.toDays < startD.toDays
    | none => false
  let sched := expand_scheduled scheduled startD horizon
  let seasonality := seasonality_factors
    (history.filter (fun r => r.amount < 0))
  let recurringEv := generate_recurring_events cache' templates startD horizon
    seasonality scheduled
  let allTx := build_all_transactions cache' txdf sched recurringEv
  let res := compose_forecast opening history startD horizon allTx
  { start_date := startD, forecast := res.1, transactions := res.2 }

/-! ## Theorems -/

theorem addBalances_length (opening acc : ℚ) (l : List CombinedTx) :
    (addBalances opening acc l).length = l.length := by
  induction l generalizing acc with
  | nil => simp [addBalances]
  | cons t rest ih => simp [addBalances, ih]

theorem addBalances_get_snd (opening : ℚ) (l : List CombinedTx) :
    ∀ (acc : ℚ) (i : Nat) (h : i < (addBalances opening acc l).length),
      ((addBalances opening acc l).get ⟨i, h⟩).2 =
        opening + acc + ((l.take (i + 1)).map (·.amount)).sum := by
  induction l with
  | nil => intro acc i h; simp [addBalances] at h
  | cons t rest ih =>
    intro acc i h
    cases i with
    | zero => simp [addBalances]; ring
    | succ j =>
      have hlt : j < (addBalances opening (acc + t.amount) rest).length := by
        simpa [addBalances] using h
      have := ih (acc + t.amount) j hlt
      simp only [addBalances, List.get] at this ⊢
      rw [this]
      simp [List.take_succ_cons]
      ring

theorem addBalances_map_snd_getLast (opening : ℚ) (l : List CombinedTx) :
    ∀ acc, ((addBalances opening acc l).map (·.2)).getLast? =
      if l = [] then none
      else some (opening + acc + (l.map (·.amount)).sum) := by
  induction l with
  | nil => intro acc; simp [addBalances]
  | cons t rest ih =>
    intro acc
    cases rest with
    | nil => simp [addBalances, add_assoc]
    | cons r rs =>
      have := ih (acc + t.amount)
      simp only [addBalances, List.map_cons] at this ⊢
      rw [List.getLast?_cons_cons, this]
      simp [add_assoc]

/-- C1: in the composed output, after the final sort by date, the balance
attached to the `i`-th event equals `opening_balance` plus the cumulative
sum of the amounts up to and including it, and the last balance equals
`opening_balance` plus the sum of all composed amounts
(forecast_engine.py:2428-2443). -/
theorem balance_continuity (opening : ℚ) (events : List CombinedTx) :
    (∀ (i : Nat) (h : i < (addBalances opening 0 (sortCombined events)).length),
      ((addBalances opening 0 (sortCombined events)).get ⟨i, h⟩).2 =
        opening + (((sortCombined events).take (i + 1)).map (·.amount)).sum) ∧
    (events ≠ [] →
      ((addBalances opening 0 (sortCombined events)).map (·.2)).getLast? =
        some (opening + (events.map (·.amount)).sum)) := by
  constructor
  · intro i h
    have := addBalances_get_snd opening (sortCombined events) 0 i h
    simpa using this
  · intro hne
    rw [addBalances_map_snd_getLast]
    have hperm : (sortCombined events).Perm events :=
      List.perm_insertionSort combinedDateLe events
    have hsum : ((sortCombined events).map (·.amount)).sum =
        (events.map (·.amount)).sum :=
      (hperm.map (·.amount)).sum_eq
    have hne' : sortCombined events ≠ [] := by
      intro hcon
      apply hne
      have hl := hperm.length_eq
      rw [hcon] at hl
      exact List.length_eq_zero.mp hl.symm
    rw [if_neg hne', hsum]
    norm_num

/-- C1 witness at a concrete three-event list. -/
theorem balance_continuity_witness :
    (2 : Nat) < (addBalances 100 0 (sortCombined
      [{ date := some 5, amount := 10, category := "income",
         description := "a", ttype := "historical" },
       { date := some 3, amount := -4, category := "gas",
         description := "b", ttype := "historical" },
       { date := some 9, amount := 7, category := "income",
         description := "c", ttype := "forecast" }])).length ∧
    ((addBalances 100 0 (sortCombined
      [{ date := some 5, amount := 10, category := "income",
         description := "a", ttype := "historical" },
       { date := some 3, amount := -4, category := "gas",
         description := "b", ttype := "historical" },
       { date := some 9, amount := 7, category := "income",
         description := "c", ttype := "forecast" }])).map (·.2)).getLast? =
      some 113 := by
  refine ⟨by decide, ?_⟩
  have h := (balance_continuity 100
    [{ date := some 5, amount := 10, category := "income",
       description := "a", ttype := "historical" },
     { date := some 3, amount := -4, category := "gas",
       description := "b", ttype := "historical" },
     { date := some 9, amount := 7, category := "income",
       description := "c", ttype := "forecast" }]).2 (by decide)
  rw [h]
  norm_num

/-- C7: `_determine_pattern` classifies a non-empty interval list purely by
the median interval, with the 8/16/35/95/400-day buckets
(forecast_engine.py:776-794). -/
theorem determine_pattern_classification (intervals : List ℚ)
    (hne : intervals ≠ []) :
    (determine_pattern intervals = some .weekly ↔ npMedian intervals ≤ 8) ∧
    (determine_pattern intervals = some .biweekly ↔
      8 < npMedian intervals ∧ npMedian intervals ≤ 16) ∧
    (determine_pattern intervals = some .monthly ↔
      16 < npMedian intervals ∧ npMedian intervals ≤ 35) ∧
    (determine_pattern intervals = some .quarterly ↔
      35 < npMedian intervals ∧ npMedian intervals ≤ 95) ∧
    (determine_pattern intervals = some .yearly ↔
      95 < npMedian intervals ∧ npMedian intervals ≤ 400) ∧
    (determine_pattern intervals = none ↔ 400 < npMedian intervals) := by
  have hlen : ¬ intervals.length = 0 := by
    simpa [List.length_eq_zero] using hne
  unfold determine_pattern
  rw [if_neg hlen]
  dsimp only
  split_ifs with h1 h2 h3 h4 h5 <;>
    refine ⟨?_, ?_, ?_, ?_, ?_, ?_⟩ <;>
    constructor <;>
    intro hx <;>
    first
      | rfl
      | linarith
      | (constructor <;> linarith)
      | (exfalso; cases hx)

/-- C7 witness: the buckets at concrete median values. -/
theorem determine_pattern_classification_witness :
    determine_pattern [7] = some .weekly ∧
    determine_pattern [500] = none := by
  have h1 := (determine_pattern_classification [7] (by decide)).1
  have h2 := (determine_pattern_classification [500] (by decide)).2.2.2.2.2
  exact ⟨h1.mpr (by norm_num [npMedian]), h2.mpr (by norm_num [npMedian])⟩

/-- With at least one event to spread over, the injection helper never caps:
the per-event amount is exactly `residual / n` and no warning fires, because
`|residual| / n` can never exceed `2 × max(|residual|, recent, 1)`. -/
theorem compute_capped_eq (history : List BaseRow) (startD : Int)
    (category : String) (residual : ℚ) (n : Int) (hn : 1 ≤ n) :
    compute_capped_event_amount history startD category residual n =
      (residual / (n : ℚ), false) := by
  have hq : (1 : ℚ) ≤ (n : ℚ) := by exact_mod_cast hn
  have hq0 : (0 : ℚ) < (n : ℚ) := by linarith
  have hraw : |residual / (n : ℚ)| ≤ |residual| := by
    rw [abs_div, abs_of_pos hq0]
    exact div_le_self (abs_nonneg _) hq
  unfold compute_capped_event_amount
  rw [if_neg (by omega : ¬ n ≤ 0)]
  dsimp only
  have hmin : min |residual / (n : ℚ)|
      (max |residual| (max (recent_total_abs history startD category) 1) *
        reconciliation_max_injection_multiplier) = |residual / (n : ℚ)| := by
    apply min_eq_left
    have h1 : |residual| ≤
        max |residual| (max (recent_total_abs history startD category) 1) :=
      le_max_left _ _
    unfold reconciliation_max_injection_multiplier
    have h2 : (0 : ℚ) ≤
        max |residual| (max (recent_total_abs history startD category) 1) :=
      le_trans (abs_nonneg _) h1
    linarith
  by_cases h0 : residual = 0
  · subst h0
    simp
  · rw [if_neg h0, hmin, Prod.mk.injEq]
    constructor
    · by_cases hneg : residual < 0
      · rw [if_pos hneg]
        have hrawneg : residual / (n : ℚ) < 0 := div_neg_of_neg_of_pos hneg hq0
        rw [abs_of_neg hrawneg]
        ring
      · rw [if_neg hneg]
        have hrawpos : 0 ≤ residual / (n : ℚ) :=
          div_nonneg (not_lt.mp hneg) (le_of_lt hq0)
        rw [abs_of_nonneg hrawpos]
        ring
    · rw [decide_eq_false_iff_not]
      intro hcon
      have habs : abs ((if residual < 0 then (-1 : ℚ) else 1) *
          abs (residual / (n : ℚ))) = abs (residual / (n : ℚ)) := by
        split_ifs <;> simp [abs_abs]
      rw [habs] at hcon
      linarith [abs_nonneg (residual / (n : ℚ))]

/-- C8: every reconciliation injection has magnitude at most
`2.0 × max(|residual|, 120-day pre-start history magnitude)`, and the cap
warning fires exactly when the uncapped per-event amount `residual / n`
exceeds that limit in magnitude — which, as the third conjunct records, can
never happen (forecast_engine.py:1045-1077, 242-243). -/
theorem reconciliation_injection_cap (history : List BaseRow) (startD : Int)
    (category : String) (residual : ℚ) (n : Int) (hn : 1 ≤ n) :
    |(compute_capped_event_amount history startD category residual n).1| ≤
      reconciliation_max_injection_multiplier *
        max |residual| (recent_total_abs history startD category) ∧
    ((compute_capped_event_amount history startD category residual n).2 = true ↔
      reconciliation_max_injection_multiplier *
          max |residual| (recent_total_abs history startD category) <
        |residual / (n : ℚ)|) ∧
    (compute_capped_event_amount history startD category residual n).2 = false := by
  have hq : (1 : ℚ) ≤ (n : ℚ) := by exact_mod_cast hn
  have hq0 : (0 : ℚ) < (n : ℚ) := by linarith
  have hraw : |residual / (n : ℚ)| ≤ |residual| := by
    rw [abs_div, abs_of_pos hq0]
    exact div_le_self (abs_nonneg _) hq
  have hmax1 : |residual| ≤ max |residual| (recent_total_abs history startD category) :=
    le_max_left _ _
  have hmax0 : (0 : ℚ) ≤ max |residual| (recent_total_abs history startD category) :=
    le_trans (abs_nonneg _) hmax1
  rw [compute_capped_eq history startD category residual n hn]
  unfold reconciliation_max_injection_multiplier
  refine ⟨by linarith, ⟨fun h => absurd h (by simp), fun h => by exfalso; linarith⟩, rfl⟩

/-- C8 witness at a concrete injection. -/
theorem reconciliation_injection_cap_witness :
    |(compute_capped_event_amount [] 0 "gas" (-300) 3).1| ≤
      reconciliation_max_injection_multiplier *
        max |(-300 : ℚ)| (recent_total_abs [] 0 "gas") ∧
    (compute_capped_event_amount [] 0 "gas" (-300) 3).2 = false := by
  have h := reconciliation_injection_cap [] 0 "gas" (-300) 3 (by norm_num)
  exact ⟨h.1, h.2.2⟩

theorem sanitizeAux_skip (bad : RawTx) (post : List RawTx)
    (hbad : bad.isDict = false ∨ bad.amount = none) :
    ∀ (pre : List RawTx) (cache : AliasCache)
      (seen : List (Option Date × ℚ × String)),
      sanitizeAux cache seen (pre ++ bad :: post) =
        sanitizeAux cache seen (pre ++ post) := by
  intro pre
  induction pre with
  | nil =>
    intro cache seen
    simp only [List.nil_append]
    conv_lhs => rw [sanitizeAux]
    rcases hbad with h | h
    · rw [if_pos h]
    · by_cases hd : bad.isDict = false
      · rw [if_pos hd]
      · rw [if_neg hd]
        dsimp only
        rw [h]
        split_ifs with htr <;> rfl
  | cons a pre ih =>
    intro cache seen
    simp only [List.cons_append]
    rw [sanitizeAux, sanitizeAux]
    simp only [ih]

/-- C10: a `transactions` entry that is not a `dict`, or whose amount fails
`float` coercion, is silently skipped by `_sanitize_transactions`: the
sanitized ledger and the final alias-cache state are the same as if the
entry had not been present, so no downstream event can derive from it and
no error is raised on its account (forecast_engine.py:310-359). -/
theorem sanitize_skips_bad_entries (cache : AliasCache) (pre post : List RawTx)
    (bad : RawTx) (hbad : bad.isDict = false ∨ bad.amount = none) :
    sanitize_transactions cache (pre ++ bad :: post) =
      sanitize_transactions cache (pre ++ post) :=
  sanitizeAux_skip bad post hbad pre cache []

/-- C10 witness: a non-dict entry and an uncoercible-amount entry between
two well-formed transactions. -/
theorem sanitize_skips_bad_entries_witness :
    sanitize_transactions AliasCache.emp
      ([{ date := some ⟨2025, 1, 3⟩, description := "Coffee Shop",
          amount := some (-5) }] ++
        ({ isDict := false } : RawTx) ::
          [{ date := some ⟨2025, 1, 4⟩, description := "Paycheck",
             amount := some 1500 }]) =
      sanitize_transactions AliasCache.emp
        ([{ date := some ⟨2025, 1, 3⟩, description := "Coffee Shop",
            amount := some (-5) }] ++
          [{ date := some ⟨2025, 1, 4⟩, description := "Paycheck",
             amount := some 1500 }]) :=
  sanitize_skips_bad_entries AliasCache.emp _ _ _ (Or.inl rfl)

/-- C9 (amended): with an empty transaction list and no scheduled events,
`run_forecast` (recurring mode; the detectors yield no template from empty
history) returns a single daily-summary entry at the start date with amount
0 and balance `opening_balance` — a flat series with one row, not one row
per horizon day (forecast_engine.py:2444-2452). -/
theorem empty_input_single_flat_entry (cache : AliasCache) (opening : ℚ)
    (horizon : Int) (today : Date) :
    (run_forecast_recurring cache [] opening [] [] horizon today).forecast =
      [{ date := today.toDays, amount := 0, balance := opening }] := rfl

/-- C9 witness. -/
theorem empty_input_single_flat_entry_witness :
    (run_forecast_recurring AliasCache.emp [] 100 [] [] 30
        ⟨2025, 1, 1⟩).forecast =
      [{ date := (⟨2025, 1, 1⟩ : Date).toDays, amount := 0, balance := 100 }] :=
  empty_input_single_flat_entry AliasCache.emp 100 30 ⟨2025, 1, 1⟩

/-- C9 counterexample: with `horizon = 2` the claimed per-day flat series
would have two entries with amount 0 and balance `opening_balance`; the
output has exactly one. -/
theorem empty_input_flat_series_cex :
    (run_forecast_recurring AliasCache.emp [] 100 [] [] 2
        ⟨2025, 1, 1⟩).forecast.length = 1 ∧
    ¬ ((run_forecast_recurring AliasCache.emp [] 100 [] [] 2
          ⟨2025, 1, 1⟩).forecast.length = 2 ∧
        ∀ e ∈ (run_forecast_recurring AliasCache.emp [] 100 [] [] 2
            ⟨2025, 1, 1⟩).forecast, e.amount = 0 ∧ e.balance = 100) := by
  constructor
  · rfl
  · intro hcon
    exact absurd hcon.1 (by decide)

theorem monthlyAnchoredEmit_amount (lastAmount : ℚ) (isRent : Bool)
    (base : Date) (endD td : Int) :
    ∀ (fuel : Nat) (next : Date) (p : Date × ℚ),
      p ∈ monthlyAnchoredEmit lastAmount isRent base endD td fuel next →
      p.2 = (if isRent then
          pyRound2 (lastAmount * (103/100) ^
            ((max ((p.1.year - base.year) * 12 + (p.1.month - base.month)) 0
              / 12).toNat))
        else pyRound2 lastAmount) := by
  intro fuel
  induction fuel with
  | zero =>
    intro next p hp
    rw [monthlyAnchoredEmit] at hp
    by_cases hc : next.toDays ≤ endD
    · rw [if_pos hc] at hp
      simp only [List.mem_singleton] at hp
      subst hp
      dsimp only
    · rw [if_neg hc] at hp
      simp at hp
  | succ f ih =>
    intro next p hp
    rw [monthlyAnchoredEmit] at hp
    by_cases hc : next.toDays ≤ endD
    · rw [if_pos hc] at hp
      rcases List.mem_cons.mp hp with h | h
      · subst h
        dsimp only
      · exact ih _ p h
    · rw [if_neg hc] at hp
      simp at hp

/-- C6: for a monthly rent template, every projected event whose calendar
date lies `k` whole years of elapsed months after the template's
`last_date` has amount `round(last_amount * 1.03^k, 2)`; for a monthly
subscription template every projected event has amount
`round(last_amount, 2)`; in both cases independently of the seasonality
factors (forecast_engine.py:1723-1755). -/
theorem rent_subscription_projection_amounts (cache : AliasCache)
    (tmpl : Template) (startD : Date) (horizon : Int)
    (seasonality : Seasonality)
    (hpat : pyLower tmpl.pattern = "monthly")
    (hcat : pyLower tmpl.category ∈ rent_categories ∨
        pyLower tmpl.category ∈ subscription_categories)
    (e : ProjEvent)
    (he : e ∈ generate_recurring_events cache [tmpl] startD horizon
      seasonality []) :
    ∃ d : Date, e.date = d.toDays ∧
      e.amount = (if pyLower tmpl.category ∈ rent_categories then
          pyRound2 (tmpl.last_amount * (103/100) ^
            ((max ((d.year - tmpl.last_date.year) * 12 +
                (d.month - tmpl.last_date.month)) 0 / 12).toNat))
        else pyRound2 tmpl.last_amount) := by
  unfold generate_recurring_events at he
  rw [if_neg (by simp)] at he
  simp only [List.filter_nil, List.map_nil, List.flatMap_cons,
    List.flatMap_nil, List.append_nil] at he
  unfold templateEvents at he
  rw [if_neg (by simp)] at he
  dsimp only at he
  rw [if_neg (by simp)] at he
  rw [if_neg (by rw [hpat]; decide)] at he
  rw [hpat] at he
  rw [if_neg (by decide)] at he
  rw [if_pos (by decide)] at he
  rw [if_pos (by exact ⟨rfl, hcat⟩)] at he
  rcases hskip : monthlyAnchoredSkip startD.toDays
      (if tmpl.day ≠ 0 then tmpl.day else tmpl.last_date.day)
      ((startD.toDays + horizon - tmpl.last_date.toDays).toNat + 2)
      (advance_month_same_day tmpl.last_date 1
        (some (if tmpl.day ≠ 0 then tmpl.day else tmpl.last_date.day))) with
    _ | nx
  · rw [hskip] at he
    simp at he
  · rw [hskip] at he
    simp only [List.mem_map] at he
    obtain ⟨p, hp, hpe⟩ := he
    refine ⟨p.1, ?_, ?_⟩
    · rw [← hpe]
    · rw [← hpe]
      dsimp only
      have hm := monthlyAnchoredEmit_amount tmpl.last_amount
        (decide (pyLower tmpl.category ∈ rent_categories)) tmpl.last_date
        (startD.toDays + horizon)
        (if tmpl.day ≠ 0 then tmpl.day else tmpl.last_date.day)
        ((startD.toDays + horizon - tmpl.last_date.toDays).toNat + 2) nx p hp
      simpa using hm

unseal Rat.add Rat.mul Rat.inv Rat.sub in
/-- C6 witness: a concrete rent template escalates by 3 % with one whole
elapsed year. -/
theorem rent_subscription_projection_amounts_witness :
    (∃ d : Date,
      (⟨Date.toDays ⟨2025, 12, 1⟩, -2060, "rent", "Rent (projected)",
        "recurring"⟩ : ProjEvent).date = d.toDays ∧
      (⟨Date.toDays ⟨2025, 12, 1⟩, -2060, "rent", "Rent (projected)",
        "recurring"⟩ : ProjEvent).amount =
        (if pyLower "rent" ∈ rent_categories then
          pyRound2 ((-2000) * (103/100) ^
            ((max ((d.year - 2024) * 12 + (d.month - 12)) 0 / 12).toNat))
        else pyRound2 (-2000))) := by
  have h := rent_subscription_projection_amounts AliasCache.emp
    { description := "Rent", normalized_description := "apt rent",
      amount := -2000, last_amount := -2000, category := "rent",
      pattern := "monthly", weekday := 0, day := 1,
      last_date := ⟨2024, 12, 1⟩ }
    ⟨2025, 1, 2⟩ 400 Seasonality.emp (by decide) (by decide)
    ⟨Date.toDays ⟨2025, 12, 1⟩, -2060, "rent", "Rent (projected)",
      "recurring"⟩ (by decide)
  simpa using h

unseal Rat.add Rat.mul Rat.inv Rat.sub in
/-- C5 counterexample: the claim fails as stated.  With description `rent`
(containing neither `payment to` nor `transfer to`) and the strictly
positive amount `1e-7`, `_categorize_transaction` returns `rent`, not
`income`: the sign override requires `amount > 1e-6`, not `amount > 0`
(forecast_engine.py:550, 587). -/
theorem income_sign_override_cex :
    (0 : ℚ) < 1/10000000 ∧
    contains_any (pySplitWs (descCleanOf (pyLower (pyStrip "rent"))))
      (descCleanOf (pyLower (pyStrip "rent")))
      ["payment to", "transfer to"] = false ∧
    categorize_transaction AliasCache.emp "rent" (some (1/10000000)) =
      "rent" := by
  refine ⟨by norm_num, by decide, by decide⟩

/-- C5 (amended): for every alias-cache state, every description that is
non-empty after stripping, and every amount strictly greater than `1e-6`,
if the cleaned description does not contain `payment to` or `transfer to`,
then `_categorize_transaction` returns `income`
(forecast_engine.py:537-587). -/
theorem income_sign_override (cache : AliasCache) (description : String)
    (a : ℚ) (hne : ¬ pyStrip description = "") (ha : 1/1000000 < a)
    (hno : contains_any (pySplitWs (descCleanOf (pyLower (pyStrip description))))
      (descCleanOf (pyLower (pyStrip description)))
      ["payment to", "transfer to"] = false) :
    categorize_transaction cache description (some a) = "income" := by
  unfold categorize_transaction
  rw [if_neg hne]
  dsimp only
  have hInc : decide (a > 1/1000000) = true := decide_eq_true ha
  have hExp : decide (a < -(1/1000000)) = false := by
    rw [decide_eq_false_iff_not]
    intro hcon
    linarith
  rw [hInc, hExp, hno]
  rw [show ((true && !false : Bool)) = true from rfl,
    if_pos (rfl : (true : Bool) = true), ite_self]
  cases hget : AliasCache.get cache
      (normalize_description (pyStrip description)) with
  | none => rfl
  | some c =>
    by_cases hc : c = "income"
    · subst hc
      rfl
    · have hb : (c != "income") = true := by
        simp [bne, hc]
      dsimp only
      rw [hb, show (!(true && true) : Bool) = false from rfl, Bool.and_false]
      rfl

/-- C5 witness: a positive deposit-free description is forced to income. -/
theorem income_sign_override_witness :
    categorize_transaction AliasCache.emp "misc stuff" (some 5) = "income" :=
  income_sign_override AliasCache.emp "misc stuff" 5 (by decide) (by norm_num)
    (by decide)

/-! ### Horizon bounds for the recurring projector (for C2) -/

theorem weeklySkip_some (startD : Int) (step : Nat) :
    ∀ (fuel : Nat) (cur : Date), ValidDate cur →
      ∀ c, weeklySkip startD step fuel cur = some c →
        startD ≤ c.toDays ∧ ValidDate c := by
  intro fuel
  induction fuel with
  | zero =>
    intro cur hv c hc
    unfold weeklySkip at hc
    split_ifs at hc with h
    injection hc with h2
    subst h2
    exact ⟨h, hv⟩
  | succ f ih =>
    intro cur hv c hc
    unfold weeklySkip at hc
    split_ifs at hc with h
    · injection hc with h2
      subst h2
      exact ⟨h, hv⟩
    · exact ih (addDaysPos cur step) (addDaysPos_toDays step cur hv).2 c hc

theorem weeklyEmit_bounds (tmpl : Template) (seas : Seasonality)
    (endD : Int) (step : Nat) (startD : Int) :
    ∀ (fuel : Nat) (cur : Date), ValidDate cur → startD ≤ cur.toDays →
      ∀ e ∈ weeklyEmit tmpl seas endD step fuel cur,
        startD ≤ e.date ∧ e.date ≤ endD := by
  intro fuel
  induction fuel with
  | zero =>
    intro cur hv hs e he
    unfold weeklyEmit at he
    split_ifs at he with h
    · rw [List.mem_cons] at he
      rcases he with rfl | he
      · exact ⟨hs, h⟩
      · exact absurd he (List.not_mem_nil e)
    · exact absurd he (List.not_mem_nil e)
  | succ f ih =>
    intro cur hv hs e he
    unfold weeklyEmit at he
    split_ifs at he with h
    · rw [List.mem_cons] at he
      rcases he with rfl | he
      · exact ⟨hs, h⟩
      · have hnext := addDaysPos_toDays step cur hv
        exact ih (addDaysPos cur step) hnext.2
          (by rw [hnext.1]; omega) e he
    · exact absurd he (List.not_mem_nil e)

theorem monthlyAnchoredSkip_some (startD td : Int) (htd : 1 ≤ td) :
    ∀ (fuel : Nat) (next : Date), ValidDate next →
      ∀ c, monthlyAnchoredSkip startD td fuel next = some c →
        startD ≤ c.toDays ∧ ValidDate c := by
  intro fuel
  induction fuel with
  | zero =>
    intro next hv c hc
    unfold monthlyAnchoredSkip at hc
    split_ifs at hc with h
    injection hc with h2
    subst h2
    exact ⟨h, hv⟩
  | succ f ih =>
    intro next hv c hc
    unfold monthlyAnchoredSkip at hc
    split_ifs at hc with h
    · injection hc with h2
      subst h2
      exact ⟨h, hv⟩
    · exact ih _ (advance_month_same_day_lt next hv 1 le_rfl td htd).2 c hc

theorem monthlyAnchoredEmit_bounds (lastAmount : ℚ) (isRent : Bool)
    (base : Date) (endD td startD : Int) (htd : 1 ≤ td) :
    ∀ (fuel : Nat) (next : Date), ValidDate next → startD ≤ next.toDays →
      ∀ p ∈ monthlyAnchoredEmit lastAmount isRent base endD td fuel next,
        startD ≤ p.1.toDays ∧ p.1.toDays ≤ endD := by
  intro fuel
  induction fuel with
  | zero =>
    intro next hv hs p hp
    unfold monthlyAnchoredEmit at hp
    split_ifs at hp with h hr
    · simp only [List.mem_cons, List.not_mem_nil, or_false] at hp
      subst hp
      exact ⟨hs, h⟩
    · simp only [List.mem_cons, List.not_mem_nil, or_false] at hp
      subst hp
      exact ⟨hs, h⟩
    · exact absurd hp (List.not_mem_nil p)
  | succ f ih =>
    intro next hv hs p hp
    have hadv := advance_month_same_day_lt next hv 1 le_rfl td htd
    unfold monthlyAnchoredEmit at hp
    split_ifs at hp with h hr
    · simp only [List.mem_cons] at hp
      rcases hp with rfl | hp
      · exact ⟨hs, h⟩
      · exact ih _ hadv.2 (by omega) p hp
    · simp only [List.mem_cons] at hp
      rcases hp with rfl | hp
      · exact ⟨hs, h⟩
      · exact ih _ hadv.2 (by omega) p hp
    · exact absurd hp (List.not_mem_nil p)

theorem genericSkip_bounds (startD k : Int) (hk : 1 ≤ k) :
    ∀ (fuel : Nat) (next : Date), ValidDate next →
      ValidDate (genericSkip startD k fuel next) ∧
        (startD ≤ (genericSkip startD k fuel next).toDays ∨
          next.toDays + fuel ≤ (genericSkip startD k fuel next).toDays) := by
  intro fuel
  induction fuel with
  | zero =>
    intro next hv
    have hres : genericSkip startD k 0 next = next := by
      unfold genericSkip
      dsimp only
      split_ifs <;> rfl
    rw [hres]
    exact ⟨hv, Or.inr (by omega)⟩
  | succ f ih =>
    intro next hv
    have hday : 1 ≤ next.day := hv.2.2.2.1
    have hadv := advance_month_same_day_lt next hv k hk next.day hday
    unfold genericSkip
    dsimp only
    split_ifs with h1 h2
    · exact ⟨hv, Or.inl h1⟩
    · exact absurd h2 (by omega)
    · have := ih (advance_month_same_day next k (some next.day)) hadv.2
      refine ⟨this.1, ?_⟩
      rcases this.2 with h | h
      · exact Or.inl h
      · refine Or.inr ?_
        push_cast at h ⊢
        omega

theorem genericEmit_bounds (tmpl : Template) (seas : Seasonality)
    (endD k startD : Int) (hk : 1 ≤ k) :
    ∀ (fuel : Nat) (next : Date), ValidDate next →
      (startD ≤ next.toDays ∨ endD < next.toDays) →
      ∀ e ∈ genericEmit tmpl seas endD k fuel next,
        startD ≤ e.date ∧ e.date ≤ endD := by
  intro fuel
  induction fuel with
  | zero =>
    intro next hv hd e he
    unfold genericEmit at he
    split_ifs at he with h
    · simp only [List.mem_cons, ite_self, List.not_mem_nil, or_false] at he
      subst he
      exact ⟨hd.resolve_right (by omega), h⟩
    · exact absurd he (List.not_mem_nil e)
  | succ f ih =>
    intro next hv hd e he
    unfold genericEmit at he
    split_ifs at he with h
    · simp only [List.mem_cons] at he
      rcases he with rfl | he
      · exact ⟨hd.resolve_right (by omega), h⟩
      · have hday : 1 ≤ next.day := hv.2.2.2.1
        have hadv := advance_month_same_day_lt next hv k hk next.day hday
        have hs : startD ≤ next.toDays := hd.resolve_right (by omega)
        split_ifs at he with hc
        · exact absurd he (List.not_mem_nil e)
        · exact ih _ hadv.2 (Or.inl (by omega)) e he
    · exact absurd he (List.not_mem_nil e)

theorem weeklyBranch_bounds (tmpl : Template) (seas : Seasonality)
    (startD : Date) (endD : Int) (step fuel : Nat)
    (hv : ValidDate tmpl.last_date) :
    ∀ e ∈ (match weeklySkip startD.toDays step fuel
        (addDaysPos tmpl.last_date step) with
      | none => ([] : List ProjEvent)
      | some c => weeklyEmit tmpl seas endD step fuel c),
      startD.toDays ≤ e.date ∧ e.date ≤ endD := by
  intro e he
  cases hws : weeklySkip startD.toDays step fuel
      (addDaysPos tmpl.last_date step) with
  | none =>
    rw [hws] at he
    exact absurd he (List.not_mem_nil e)
  | some c =>
    rw [hws] at he
    have h := weeklySkip_some startD.toDays step fuel _
      (addDaysPos_toDays step _ hv).2 c hws
    exact weeklyEmit_bounds tmpl seas endD step startD.toDays fuel c
      h.2 h.1 e he

theorem anchoredBranch_bounds (startD endD td : Int) (fuel : Nat)
    (lastAmount : ℚ) (isRent : Bool) (base : Date) (cat desc : String)
    (hv : ValidDate base) (htd : 1 ≤ td) :
    ∀ e ∈ (match monthlyAnchoredSkip startD td fuel
        (advance_month_same_day base 1 (some td)) with
      | none => ([] : List ProjEvent)
      | some nx => (monthlyAnchoredEmit lastAmount isRent base endD td fuel
          nx).map fun (p : Date × ℚ) =>
        { date := p.1.toDays, amount := p.2, category := cat,
          description := desc, source := "recurring" }),
      startD ≤ e.date ∧ e.date ≤ endD := by
  intro e he
  cases hms : monthlyAnchoredSkip startD td fuel
      (advance_month_same_day base 1 (some td)) with
  | none =>
    rw [hms] at he
    exact absurd he (List.not_mem_nil e)
  | some nx =>
    rw [hms] at he
    have hstart := advance_month_same_day_lt base hv 1 le_rfl td htd
    have h := monthlyAnchoredSkip_some startD td htd fuel _ hstart.2 nx hms
    rcases List.mem_map.mp he with ⟨p, hp, rfl⟩
    exact monthlyAnchoredEmit_bounds lastAmount isRent base endD td startD
      htd fuel nx h.2 h.1 p hp

theorem getD_offset_ge_one (o : Option Int) (c : Int) (hc : 1 ≤ c)
    (ho : ∀ k, o = some k → 1 ≤ k) : 1 ≤ o.getD c := by
  cases o with
  | none => simpa using hc
  | some v => simpa using ho v rfl

theorem genericBranch_bounds (tmpl : Template) (seas : Seasonality)
    (startD : Date) (endD k : Int) (hk : 1 ≤ k)
    (hv : ValidDate tmpl.last_date) :
    ∀ e ∈ genericEmit tmpl seas endD k
        ((endD - tmpl.last_date.toDays).toNat + 2)
        (genericSkip startD.toDays k
          ((endD - tmpl.last_date.toDays).toNat + 2)
          (advance_month_same_day tmpl.last_date k
            (some tmpl.last_date.day))),
      startD.toDays ≤ e.date ∧ e.date ≤ endD := by
  intro e he
  have hday : 1 ≤ tmpl.last_date.day := hv.2.2.2.1
  have hadv := advance_month_same_day_lt tmpl.last_date hv k hk
    tmpl.last_date.day hday
  have hgs := genericSkip_bounds startD.toDays k hk
    ((endD - tmpl.last_date.toDays).toNat + 2) _ hadv.2
  refine genericEmit_bounds tmpl seas endD k startD.toDays hk _ _
    hgs.1 ?_ e he
  rcases hgs.2 with h | h
  · exact Or.inl h
  · refine Or.inr ?_
    have h1 := hadv.1
    omega

/-- Every event a template generates lies in the closed horizon window
`[start_date, start_date + horizon]` (forecast_engine.py:1675-1785: each
emission loop runs `while current <= end_date`). -/
theorem templateEvents_bounds (tmpl : Template) (startD : Date)
    (horizon : Int) (seas : Seasonality) (sn : List String)
    (ss : List (String × Int)) (hv : ValidDate tmpl.last_date)
    (hday : 0 ≤ tmpl.day)
    (hoff : ∀ k, tmpl.offsetMonths = some k → 1 ≤ k) :
    ∀ e ∈ templateEvents tmpl startD horizon seas sn ss,
      startD.toDays ≤ e.date ∧ e.date ≤ startD.toDays + horizon := by
  intro e he
  have htd1 : 1 ≤ (if tmpl.day ≠ 0 then tmpl.day else tmpl.last_date.day) := by
    split_ifs with h
    · omega
    · exact hv.2.2.2.1
  unfold templateEvents at he
  dsimp only at he
  by_cases h1 : tmpl.normalized_description ∈ sn
  · rw [if_pos h1] at he
    exact absurd he (List.not_mem_nil e)
  rw [if_neg h1] at he
  by_cases h2 : (tmpl.category,
      if tmpl.amount > 0 then (1 : Int) else -1) ∈ ss
  · rw [if_pos h2] at he
    exact absurd he (List.not_mem_nil e)
  rw [if_neg h2] at he
  by_cases h3 : pyLower tmpl.pattern = ""
  · rw [if_pos h3] at he
    exact absurd he (List.not_mem_nil e)
  rw [if_neg h3] at he
  by_cases h4 : pyLower tmpl.pattern = "weekly" ∨
      pyLower tmpl.pattern = "biweekly"
  · rw [if_pos h4] at he
    exact weeklyBranch_bounds tmpl seas startD _ _ _ hv e he
  rw [if_neg h4] at he
  by_cases h5 : pyLower tmpl.pattern = "monthly" ∨
      pyLower tmpl.pattern = "quarterly" ∨ pyLower tmpl.pattern = "yearly"
  · rw [if_pos h5] at he
    by_cases h6 : pyLower tmpl.pattern = "monthly" ∧
        (pyLower tmpl.category ∈ rent_categories ∨
          pyLower tmpl.category ∈ subscription_categories)
    · rw [if_pos h6] at he
      exact anchoredBranch_bounds _ _ _ _ _ _ _ _ _ hv htd1 e he
    · rw [if_neg h6] at he
      exact genericBranch_bounds tmpl seas startD _ _
        (getD_offset_ge_one tmpl.offsetMonths _ (by split_ifs <;> norm_num)
          hoff) hv e he
  · rw [if_neg h5] at he
    exact absurd he (List.not_mem_nil e)

/-- All events of the recurring projector lie in the closed horizon window
(forecast_engine.py:1650-1792). -/
theorem generate_recurring_events_bounds (cache : AliasCache)
    (templates : List Template) (startD : Date) (horizon : Int)
    (seas : Seasonality) (scheduled : List Sched)
    (htm : ∀ t ∈ templates, ValidDate t.last_date ∧ 0 ≤ t.day ∧
      ∀ k, t.offsetMonths = some k → 1 ≤ k) :
    ∀ e ∈ generate_recurring_events cache templates startD horizon seas
        scheduled,
      startD.toDays ≤ e.date ∧ e.date ≤ startD.toDays + horizon := by
  intro e he
  unfold generate_recurring_events at he
  split_ifs at he with h
  · exact absurd he (List.not_mem_nil e)
  · dsimp only at he
    rcases List.mem_flatMap.mp he with ⟨t, ht, hte⟩
    obtain ⟨hv, hday, hoff⟩ := htm t ht
    exact templateEvents_bounds t startD horizon _ _ _ hv hday hoff e hte

/-- In the combined frame, the rows typed `forecast` are exactly the mapped
recurring events (forecast_engine.py:2367-2425, `recurring` mode). -/
theorem build_all_forecast_rows (cache : AliasCache) (txdf : List BaseRow)
    (sched : List SchedEvent) (rec : List ProjEvent) :
    ∀ r ∈ build_all_transactions cache txdf sched rec,
      r.ttype = "forecast" → ∃ e ∈ rec, r.date = some e.date := by
  intro r hr hf
  unfold build_all_transactions at hr
  simp only [List.mem_append, List.mem_map] at hr
  rcases hr with (⟨b, hb, rfl⟩ | ⟨s, hs, rfl⟩) | ⟨ev, hev, rfl⟩
  · simp at hf
  · simp at hf
  · exact ⟨ev, hev, rfl⟩

theorem addBalances_mem_fst (opening : ℚ) (l : List CombinedTx) :
    ∀ (acc : ℚ) (p : CombinedTx × ℚ), p ∈ addBalances opening acc l →
      p.1 ∈ l := by
  induction l with
  | nil =>
    intro acc p hp
    simp [addBalances] at hp
  | cons t rest ih =>
    intro acc p hp
    simp only [addBalances, List.mem_cons] at hp
    rcases hp with rfl | hp
    · exact List.mem_cons_self _ _
    · exact List.mem_cons_of_mem _ (ih _ _ hp)

/-- Amount-only updates of combined rows keep their dates and types. -/
theorem mem_ifAmountMap {l : List CombinedTx} {p : CombinedTx → Bool}
    {f : CombinedTx → ℚ} {r : CombinedTx}
    (h : r ∈ l.map fun x => if p x then { x with amount := f x } else x) :
    ∃ r₀ ∈ l, r.date = r₀.date ∧ r.ttype = r₀.ttype := by
  rcases List.mem_map.mp h with ⟨x, hx, rfl⟩
  by_cases hp : p x
  · exact ⟨x, hx, by simp [hp], by simp [hp]⟩
  · exact ⟨x, hx, by simp [hp], by simp [hp]⟩

theorem mem_append_cases {α : Type} {l₁ l₂ : List α} {P : α → Prop} {r : α}
    (h : r ∈ l₁ ++ l₂) (h₂ : ∀ x ∈ l₂, P x) : r ∈ l₁ ∨ P r := by
  rcases List.mem_append.mp h with h | h
  · exact Or.inl h
  · exact Or.inr (h₂ r h)

/-- Rows injected by the reconciler start at `start_date` and stay within
the horizon (forecast_engine.py:1103-1113, 1180-1190). -/
theorem injectionRows_bound (history : List BaseRow) (startD horizon : Int)
    (cfg : ReconConfig) (total : ℚ) (label : String) (hhz : 0 ≤ horizon) :
    ∀ x ∈ injectionRows history startD horizon cfg total label,
      x.ttype = "forecast" ∧ ∃ d, x.date = some d ∧ startD ≤ d ∧
        d ≤ startD + horizon := by
  intro x hx
  unfold injectionRows at hx
  dsimp only at hx
  rcases List.mem_map.mp hx with ⟨idx, hidx, rfl⟩
  refine ⟨rfl, _, rfl, ?_, ?_⟩
  · have h0 : 0 ≤ (idx : Int) * max cfg.interval_days 1 :=
      mul_nonneg (Int.natCast_nonneg idx) (by omega)
    omega
  · omega

set_option maxHeartbeats 2000000 in
/-- The rescale tail only rescales amounts of existing rows and injects
forecast rows inside the horizon (forecast_engine.py:1124-1194). -/
theorem reconcileScale_spec (history : List BaseRow)
    (startD horizon : Int) (hhz : 0 ≤ horizon) (cfg : ReconConfig)
    (tv : ℚ) (rows injected : List CombinedTx) (pt rm : ℚ) :
    (∀ r ∈ (reconcileScale history startD horizon cfg tv rows injected
        pt rm).1,
      ∃ r₀ ∈ rows, r.date = r₀.date ∧ r.ttype = r₀.ttype) ∧
    (∀ r ∈ (reconcileScale history startD horizon cfg tv rows injected
        pt rm).2,
      r ∈ injected ∨ (r.ttype = "forecast" ∧ ∃ d, r.date = some d ∧
        startD ≤ d ∧ d ≤ startD + horizon)) := by
  constructor
  · intro r hr
    unfold reconcileScale at hr
    dsimp only at hr
    split_ifs at hr <;>
      first
        | exact ⟨r, hr, rfl, rfl⟩
        | (obtain ⟨r₀, h₀, hd, ht⟩ := mem_ifAmountMap hr
           exact ⟨r₀, h₀, hd, ht⟩)
  · intro r hr
    unfold reconcileScale at hr
    dsimp only at hr
    split_ifs at hr <;>
      first
        | exact Or.inl hr
        | exact mem_append_cases hr
            (injectionRows_bound history startD horizon cfg _ _ hhz)

/-- The targeted loop body only rescales amounts of existing rows (their
dates and types survive) and injects forecast rows inside the horizon
(forecast_engine.py:1092-1194). -/
theorem reconcileWithTarget_spec (history : List BaseRow)
    (startD horizon : Int) (hhz : 0 ≤ horizon)
    (st : List CombinedTx × List CombinedTx) (cfg : ReconConfig)
    (tv : ℚ) :
    (∀ r ∈ (reconcileWithTarget history startD horizon st cfg tv).1,
      ∃ r₀ ∈ st.1, r.date = r₀.date ∧ r.ttype = r₀.ttype) ∧
    (∀ r ∈ (reconcileWithTarget history startD horizon st cfg tv).2,
      r ∈ st.2 ∨ (r.ttype = "forecast" ∧ ∃ d, r.date = some d ∧
        startD ≤ d ∧ d ≤ startD + horizon)) := by
  constructor
  · intro r hr
    unfold reconcileWithTarget at hr
    dsimp only at hr
    split_ifs at hr <;>
      first
        | exact ⟨r, hr, rfl, rfl⟩
        | (obtain ⟨r₀, h₀, hd, ht⟩ := mem_ifAmountMap hr
           exact ⟨r₀, h₀, hd, ht⟩)
        | (obtain ⟨r₀, h₀, hd, ht⟩ := mem_ifAmountMap hr
           obtain ⟨r₁, h₁, hd2, ht2⟩ := mem_ifAmountMap h₀
           exact ⟨r₁, h₁, hd.trans hd2, ht.trans ht2⟩)
        | (obtain ⟨r₀, h₀, hd, ht⟩ :=
             (reconcileScale_spec history startD horizon hhz cfg _ _ _
               _ _).1 r hr
           exact ⟨r₀, h₀, hd, ht⟩)
        | (obtain ⟨r₀, h₀, hd, ht⟩ :=
             (reconcileScale_spec history startD horizon hhz cfg _ _ _
               _ _).1 r hr
           obtain ⟨r₁, h₁, hd2, ht2⟩ := mem_ifAmountMap h₀
           exact ⟨r₁, h₁, hd.trans hd2, ht.trans ht2⟩)
  · intro r hr
    unfold reconcileWithTarget at hr
    dsimp only at hr
    split_ifs at hr <;>
      first
        | exact Or.inl hr
        | exact mem_append_cases hr
            (injectionRows_bound history startD horizon cfg _ _ hhz)
        | exact (reconcileScale_spec history startD horizon hhz cfg _ _ _
            _ _).2 r hr

/-- One reconciliation step only rescales amounts of existing rows and
injects forecast rows inside the horizon (forecast_engine.py:1079-1194). -/
theorem reconcileCategory_spec (history : List BaseRow)
    (startD horizon : Int) (hhz : 0 ≤ horizon)
    (st : List CombinedTx × List CombinedTx) (cfg : ReconConfig) :
    (∀ r ∈ (reconcileCategory history startD horizon st cfg).1,
      ∃ r₀ ∈ st.1, r.date = r₀.date ∧ r.ttype = r₀.ttype) ∧
    (∀ r ∈ (reconcileCategory history startD horizon st cfg).2,
      r ∈ st.2 ∨ (r.ttype = "forecast" ∧ ∃ d, r.date = some d ∧
        startD ≤ d ∧ d ≤ startD + horizon)) := by
  constructor
  · intro r hr
    unfold reconcileCategory at hr
    dsimp only at hr
    cases htv : (if compute_expected_total history cfg.category horizon
          cfg.polarity = none ∧ cfg.category = "other" then
        otherFallbackTarget history startD horizon
      else compute_expected_total history cfg.category horizon
        cfg.polarity) with
    | none =>
      rw [htv] at hr
      exact ⟨r, hr, rfl, rfl⟩
    | some tv =>
      rw [htv] at hr
      exact (reconcileWithTarget_spec history startD horizon hhz st cfg
        tv).1 r hr
  · intro r hr
    unfold reconcileCategory at hr
    dsimp only at hr
    cases htv : (if compute_expected_total history cfg.category horizon
          cfg.polarity = none ∧ cfg.category = "other" then
        otherFallbackTarget history startD horizon
      else compute_expected_total history cfg.category horizon
        cfg.polarity) with
    | none =>
      rw [htv] at hr
      exact Or.inl hr
    | some tv =>
      rw [htv] at hr
      exact (reconcileWithTarget_spec history startD horizon hhz st cfg
        tv).2 r hr

theorem reconcile_foldl_spec (history : List BaseRow)
    (startD horizon : Int) (hhz : 0 ≤ horizon) :
    ∀ (cfgs : List ReconConfig) (st : List CombinedTx × List CombinedTx),
      (∀ r ∈ (cfgs.foldl (reconcileCategory history startD horizon) st).1,
        ∃ r₀ ∈ st.1, r.date = r₀.date ∧ r.ttype = r₀.ttype) ∧
      (∀ r ∈ (cfgs.foldl (reconcileCategory history startD horizon) st).2,
        r ∈ st.2 ∨ (r.ttype = "forecast" ∧ ∃ d, r.date = some d ∧
          startD ≤ d ∧ d ≤ startD + horizon)) := by
  intro cfgs
  induction cfgs with
  | nil =>
    intro st
    exact ⟨fun r hr => ⟨r, hr, rfl, rfl⟩, fun r hr => Or.inl hr⟩
  | cons c cs ih =>
    intro st
    have h1 := reconcileCategory_spec history startD horizon hhz st c
    have h2 := ih (reconcileCategory history startD horizon st c)
    constructor
    · intro r hr
      obtain ⟨r₀, hr₀, hd, ht⟩ := h2.1 r hr
      obtain ⟨r₁, hr₁, hd2, ht2⟩ := h1.1 r₀ hr₀
      exact ⟨r₁, hr₁, hd.trans hd2, ht.trans ht2⟩
    · intro r hr
      rcases h2.2 r hr with hmem | hb
      · exact h1.2 r hmem
      · exact Or.inr hb

/-- `_apply_category_targets` keeps every row's date and type, only adding
forecast rows dated inside the horizon (forecast_engine.py:1031-1199). -/
theorem apply_category_targets_mem (combined : List CombinedTx)
    (history : List BaseRow) (startD horizon : Int) (hhz : 0 ≤ horizon) :
    ∀ r ∈ apply_category_targets combined history startD horizon,
      (∃ r₀ ∈ combined, r.date = r₀.date ∧ r.ttype = r₀.ttype) ∨
        (r.ttype = "forecast" ∧ ∃ d, r.date = some d ∧ startD ≤ d ∧
          d ≤ startD + horizon) := by
  intro r hr
  unfold apply_category_targets at hr
  split_ifs at hr <;>
    first
      | exact Or.inl ⟨r, hr, rfl, rfl⟩
      | (dsimp only at hr
         rcases List.mem_append.mp hr with hl | hrr
         · exact Or.inl ((reconcile_foldl_spec history startD horizon hhz
             reconciliation_categories (combined, [])).1 r hl)
         · rcases (reconcile_foldl_spec history startD horizon hhz
               reconciliation_categories (combined, [])).2 r hrr with
             hmem | hb
           · exact absurd hmem (List.not_mem_nil r)
           · exact Or.inr hb)

/-- Every forecast-typed row of the composed output either keeps the date
of a combined input row or was injected inside the horizon
(forecast_engine.py:2427-2443). -/
theorem compose_forecast_forecast_dates (opening : ℚ)
    (history : List BaseRow) (startD : Date) (horizon : Int)
    (allTx : List CombinedTx) (hhz : 0 ≤ horizon)
    (hin : ∀ r ∈ allTx, r.ttype = "forecast" →
      ∃ d, r.date = some d ∧ startD.toDays ≤ d ∧
        d ≤ startD.toDays + horizon) :
    ∀ p ∈ (compose_forecast opening history startD horizon allTx).2,
      p.1.ttype = "forecast" →
        ∃ d, p.1.date = some d ∧ startD.toDays ≤ d ∧
          d ≤ startD.toDays + horizon := by
  intro p hp hf
  unfold compose_forecast at hp
  split_ifs at hp with h
  · dsimp only at hp
    have h1 : p.1 ∈ sortCombined (apply_category_targets
        (sortCombined allTx) history startD.toDays horizon) :=
      addBalances_mem_fst opening _ 0 p hp
    have h2 : p.1 ∈ apply_category_targets (sortCombined allTx) history
        startD.toDays horizon :=
      (List.perm_insertionSort combinedDateLe _).mem_iff.mp h1
    rcases apply_category_targets_mem (sortCombined allTx) history
        startD.toDays horizon hhz p.1 h2 with ⟨r₀, hr₀, hd, ht⟩ | ⟨_, hb⟩
    · have hr₀2 : r₀ ∈ allTx :=
        (List.perm_insertionSort combinedDateLe allTx).mem_iff.mp hr₀
      obtain ⟨d, hdate, hlo, hhi⟩ := hin r₀ hr₀2 (ht ▸ hf)
      exact ⟨d, hd ▸ hdate, hlo, hhi⟩
    · exact hb
  · simp only [List.mem_singleton] at hp
    subst hp
    exact ⟨startD.toDays, rfl, le_refl _, by omega⟩

unseal Rat.add Rat.mul Rat.inv Rat.sub in
/-- C2 counterexample: the claim fails as stated.  Every projection loop
runs `while current <= end_date` (forecast_engine.py:1704, 1737, 1767), so
an event can land exactly on `start_date + horizon`, outside the claimed
half-open interval `[start_date, start_date + horizon)`.  With one history
row on 2025-01-07 (so `start_date = 2025-01-08`), a weekly template last
seen 2025-01-01 and `horizon = 7`, the output contains a forecast-typed
event dated exactly `start_date + horizon`. -/
theorem horizon_containment_cex :
    (run_forecast_recurring AliasCache.emp
        [{ description := "Gym", normalized_description := "gym",
           amount := -30, last_amount := -30, category := "entertainment",
           pattern := "weekly", weekday := 2, day := 1,
           last_date := ⟨2025, 1, 1⟩ }]
        0
        [{ isDict := true, date := some ⟨2025, 1, 7⟩,
           description := "apartment rent", amount := some (-10) }]
        [] 7 ⟨2025, 1, 1⟩).start_date = ⟨2025, 1, 8⟩ ∧
    ((run_forecast_recurring AliasCache.emp
        [{ description := "Gym", normalized_description := "gym",
           amount := -30, last_amount := -30, category := "entertainment",
           pattern := "weekly", weekday := 2, day := 1,
           last_date := ⟨2025, 1, 1⟩ }]
        0
        [{ isDict := true, date := some ⟨2025, 1, 7⟩,
           description := "apartment rent", amount := some (-10) }]
        [] 7 ⟨2025, 1, 1⟩).transactions.any fun p =>
      p.1.ttype == "forecast" &&
        p.1.date == some (Date.toDays ⟨2025, 1, 8⟩ + 7)) = true := by
  refine ⟨by decide, by decide⟩

/-- C2 (amended): every forecast-typed event of a `recurring` run lies in
the CLOSED interval `[start_date, start_date + horizon]`, where
`start_date = max(today, last_history_date + 1 day)`
(forecast_engine.py:2282-2296) — the upper endpoint is attainable, so the
half-open version of the claim is false.  The template hypotheses hold for
every detected template: `last_date` is a real timestamp, `day` is a
day-of-month (or 0 when absent) and augmentation offsets are at least one
month. -/
theorem horizon_containment (cache : AliasCache) (templates : List Template)
    (opening : ℚ) (transactions : List RawTx) (scheduled : List Sched)
    (horizon : Int) (today : Date) (hhz : 0 ≤ horizon)
    (htm : ∀ t ∈ templates, ValidDate t.last_date ∧ 0 ≤ t.day ∧
      ∀ k, t.offsetMonths = some k → 1 ≤ k) :
    ∀ p ∈ (run_forecast_recurring cache templates opening transactions
        scheduled horizon today).transactions,
      p.1.ttype = "forecast" →
        ∃ d, p.1.date = some d ∧
          (run_forecast_recurring cache templates opening transactions
              scheduled horizon today).start_date.toDays ≤ d ∧
          d ≤ (run_forecast_recurring cache templates opening transactions
              scheduled horizon today).start_date.toDays + horizon := by
  intro p hp hf
  unfold run_forecast_recurring at hp ⊢
  dsimp only at hp ⊢
  refine compose_forecast_forecast_dates opening _ _ horizon _ hhz
    ?_ p hp hf
  intro r hr hrf
  obtain ⟨e, he, hdate⟩ := build_all_forecast_rows _ _ _ _ r hr hrf
  obtain ⟨hlo, hhi⟩ := generate_recurring_events_bounds _ _ _ horizon _ _
    htm e he
  exact ⟨e.date, hdate, hlo, hhi⟩

/-- C2 witness: on the empty input the single flat forecast row sits at the
start date, inside the closed window. -/
theorem horizon_containment_witness :
    ∃ d, (({ date := some (Date.toDays ⟨2025, 1, 1⟩), amount := 0,
             category := "other", description := "Balance projection",
             ttype := "forecast",
             projection_source := none } : CombinedTx)).date = some d ∧
      (run_forecast_recurring AliasCache.emp [] 0 [] [] 7
          ⟨2025, 1, 1⟩).start_date.toDays ≤ d ∧
      d ≤ (run_forecast_recurring AliasCache.emp [] 0 [] [] 7
          ⟨2025, 1, 1⟩).start_date.toDays + 7 :=
  horizon_containment AliasCache.emp [] 0 [] [] 7 ⟨2025, 1, 1⟩
    (by norm_num) (by simp)
    ({ date := some (Date.toDays ⟨2025, 1, 1⟩), amount := 0,
       category := "other", description := "Balance projection",
       ttype := "forecast", projection_source := none }, 0)
    (List.mem_singleton.mpr rfl) rfl

/-! ### Transfer detection (for C3) -/

/-- The first-match regex loop equals the existential reading: some regex
matches and the text is not whitelisted (forecast_engine.py:302-306). -/
theorem transferRegexLoop_eq (n : String) (toks : List String) :
    ∀ rs : List TransferRegex,
      transferRegexLoop n toks rs =
        (rs.any (transferRegexMatches toks) &&
          ! transfer_whitelist.any fun p => strContains n p) := by
  intro rs
  induction rs with
  | nil => rfl
  | cons r rest ih =>
    unfold transferRegexLoop
    split_ifs with h
    · rw [List.any_cons, h, Bool.true_or, Bool.true_and]
      cases hwl : transfer_whitelist.any fun p => strContains n p <;> decide
    · simp [List.any_cons, h, ih]

/-- No sanitized entry is an internal transfer
(forecast_engine.py:318-321). -/
theorem sanitizeAux_no_transfers (txs : List RawTx) :
    ∀ (cache : AliasCache) (seen : List (Option Date × ℚ × String))
      (e : CleanTx), e ∈ (sanitizeAux cache seen txs).1 →
        is_internal_transfer e.description = false := by
  induction txs with
  | nil =>
    intro cache seen e he
    simp [sanitizeAux] at he
  | cons t rest ih =>
    intro cache seen e he
    unfold sanitizeAux at he
    dsimp only at he
    split_ifs at he with h1 h2 <;>
      first
        | exact ih _ _ e he
        | (cases hta : t.amount with
           | none =>
             rw [hta] at he
             exact ih _ _ e he
           | some amt =>
             rw [hta] at he
             dsimp only at he
             split_ifs at he <;>
               first
                 | exact ih _ _ e he
                 | (simp only [List.mem_cons] at he
                    rcases he with rfl | he
                    · exact eq_false_of_ne_true h2
                    · exact ih _ _ e he))

/-- C3: `_is_internal_transfer` is true exactly when its normalized text
contains a blacklist phrase, or some transfer regex matches and no
whitelist phrase occurs (forecast_engine.py:290-308); and every sanitized
ledger entry has a non-transfer description, so flagged inputs never reach
any output event (forecast_engine.py:318-321). -/
theorem internal_transfer_detection (d : String) (cache : AliasCache)
    (txs : List RawTx) :
    (is_internal_transfer d = true ↔
      ((∃ p ∈ transfer_blacklist,
          strContains (transferNormalize d) p = true) ∨
        ((∃ r ∈ transfer_regexes,
            transferRegexMatches (pySplitWs (transferNormalize d)) r
              = true) ∧
          ∀ p ∈ transfer_whitelist,
            strContains (transferNormalize d) p = false))) ∧
    (∀ e ∈ (sanitize_transactions cache txs).1,
      is_internal_transfer e.description = false) := by
  constructor
  · by_cases hd : d = ""
    · subst hd
      decide
    · unfold is_internal_transfer
      rw [if_neg hd]
      dsimp only
      rw [transferRegexLoop_eq]
      by_cases hb : (transfer_blacklist.any fun p =>
          strContains (transferNormalize d) p) = true
      · rw [if_pos hb]
        simp only [true_iff]
        left
        simpa using List.any_eq_true.mp hb
      · rw [if_neg hb]
        have hb2 : ∀ p ∈ transfer_blacklist,
            ¬ strContains (transferNormalize d) p = true := by
          simpa using List.any_eq_false.mp (eq_false_of_ne_true hb)
        simp only [Bool.and_eq_true, Bool.not_eq_true', List.any_eq_true,
          List.any_eq_false]
        constructor
        · intro ⟨⟨r, hr, hm⟩, hw⟩
          exact Or.inr ⟨⟨r, hr, hm⟩,
            fun p hp => eq_false_of_ne_true (hw p hp)⟩
        · intro h
          rcases h with ⟨p, hp, hc⟩ | ⟨⟨r, hr, hm⟩, hw⟩
          · exact absurd hc (hb2 p hp)
          · exact ⟨⟨r, hr, hm⟩, fun p hp => by simp [hw p hp]⟩
  · exact sanitizeAux_no_transfers txs cache []

/-! ### Sanitizer stability (for C4) -/

theorem dropWhile_head_false (p : Char → Bool) :
    ∀ (l : List Char) (c : Char), (l.dropWhile p).head? = some c →
      p c = false := by
  intro l
  induction l with
  | nil =>
    intro c hc
    simp [List.dropWhile] at hc
  | cons a rest ih =>
    intro c hc
    rw [List.dropWhile_cons] at hc
    split_ifs at hc with h
    · exact ih c hc
    · simp only [List.head?_cons, Option.some.injEq] at hc
      subst hc
      exact eq_false_of_ne_true h

theorem dropWhile_getLast (p : Char → Bool) :
    ∀ l : List Char, l.dropWhile p ≠ [] →
      (l.dropWhile p).getLast? = l.getLast? := by
  intro l
  induction l with
  | nil =>
    intro h
    simp [List.dropWhile] at h
  | cons a rest ih =>
    intro h
    rw [List.dropWhile_cons] at h ⊢
    split_ifs at h ⊢ with hp
    · have hrest : rest ≠ [] := by
        intro hcon
        rw [hcon] at h
        simp [List.dropWhile] at h
      rw [ih h]
      cases rest with
      | nil => exact absurd rfl hrest
      | cons b bs => simp [List.getLast?_cons_cons]
    · rfl

theorem dropWhile_idem (p : Char → Bool) (l : List Char) :
    (l.dropWhile p).dropWhile p = l.dropWhile p := by
  cases hd : l.dropWhile p with
  | nil => rfl
  | cons c r =>
    have hc : p c = false :=
      dropWhile_head_false p l c (by rw [hd]; rfl)
    rw [List.dropWhile_cons]
    simp [hc]

theorem trimChars_idem (m : List Char) :
    (((((m.dropWhile Char.isWhitespace).reverse.dropWhile
          Char.isWhitespace).reverse).dropWhile
            Char.isWhitespace).reverse.dropWhile
              Char.isWhitespace).reverse =
      ((m.dropWhile Char.isWhitespace).reverse.dropWhile
        Char.isWhitespace).reverse := by
  set w := m.dropWhile Char.isWhitespace with hw
  set u := w.reverse.dropWhile Char.isWhitespace with hu
  have h1 : u.reverse.dropWhile Char.isWhitespace = u.reverse := by
    cases hr : u.reverse with
    | nil => rfl
    | cons c r =>
      have hu_ne : u ≠ [] := by
        intro hcon
        rw [hcon] at hr
        simp at hr
      have hg : u.getLast? = w.head? := by
        rw [hu, dropWhile_getLast _ _ (by rw [← hu]; exact hu_ne)]
        rw [List.getLast?_reverse]
      have hh : u.reverse.head? = some c := by rw [hr]; rfl
      rw [List.head?_reverse] at hh
      have hwc : w.head? = some c := by rw [← hg, hh]
      have hcw : Char.isWhitespace c = false := by
        apply dropWhile_head_false Char.isWhitespace m c
        rw [← hw]
        exact hwc
      rw [List.dropWhile_cons]
      simp [hcw]
  rw [h1, List.reverse_reverse, hu, dropWhile_idem]

/-- Python `strip` is idempotent. -/
theorem pyStrip_idem (s : String) : pyStrip (pyStrip s) = pyStrip s := by
  unfold pyStrip
  exact congrArg String.mk (trimChars_idem s.toList)

/-- First-pass invariants: sanitized descriptions are stripped and the
entries carry pairwise-distinct dedup keys, none already seen
(forecast_engine.py:333-344). -/
theorem sanitizeAux_keys (txs : List RawTx) :
    ∀ (cache : AliasCache) (seen : List (Option Date × ℚ × String)),
      (∀ e ∈ (sanitizeAux cache seen txs).1,
        e.description = pyStrip e.description ∧ entryKey e ∉ seen) ∧
      List.Pairwise (fun a b => entryKey a ≠ entryKey b)
        (sanitizeAux cache seen txs).1 := by
  induction txs with
  | nil =>
    intro cache seen
    constructor
    · intro e he
      simp [sanitizeAux] at he
    · simp [sanitizeAux]
  | cons t rest ih =>
    intro cache seen
    unfold sanitizeAux
    dsimp only
    by_cases h1 : t.isDict = false
    · rw [if_pos h1]
      exact ih cache seen
    rw [if_neg h1]
    by_cases h2 : is_internal_transfer (pyStrip t.description) = true
    · rw [if_pos h2]
      exact ih cache seen
    rw [if_neg h2]
    cases hta : t.amount with
    | none => exact ih cache seen
    | some amt =>
      dsimp only
      by_cases h3 : seen.contains (sanitizeKey t.date amt
          (if normalize_description (pyStrip t.description) ≠ "" then
            normalize_description (pyStrip t.description)
          else pyLower (pyStrip t.description))) = true
      · rw [if_pos h3]
        exact ih cache seen
      · rw [if_neg h3]
        dsimp only
        have hcontains : sanitizeKey t.date amt
            (if normalize_description (pyStrip t.description) ≠ "" then
              normalize_description (pyStrip t.description)
            else pyLower (pyStrip t.description)) ∉ seen := by
          intro hcon
          exact h3 (by simpa using hcon)
        constructor
        · intro e he
          simp only [List.mem_cons] at he
          rcases he with rfl | he
          · refine ⟨(pyStrip_idem t.description).symm, ?_⟩
            simpa [entryKey, sanitizeKey] using hcontains
          · have := (ih _ (sanitizeKey t.date amt
                (if normalize_description (pyStrip t.description) ≠ ""
                 then normalize_description (pyStrip t.description)
                 else pyLower (pyStrip t.description)) :: seen)).1 e he
            exact ⟨this.1, fun hc => this.2 (List.mem_cons_of_mem _ hc)⟩
        · refine List.pairwise_cons.mpr ⟨?_, (ih _ _).2⟩
          intro e' he' hceq
          have := (ih _ (sanitizeKey t.date amt
              (if normalize_description (pyStrip t.description) ≠ ""
               then normalize_description (pyStrip t.description)
               else pyLower (pyStrip t.description)) :: seen)).1 e' he'
          apply this.2
          rw [← hceq]
          exact List.mem_cons_self _ _

/-- Feeding rows that are stripped, transfer-free and carry unseen,
pairwise-distinct keys back through the sanitizer keeps every row's date,
description and amount (only the category column may be recomputed). -/
theorem sanitize_second_pass (l : List CleanTx) :
    ∀ (cache : AliasCache) (seen : List (Option Date × ℚ × String)),
      (∀ e ∈ l, e.description = pyStrip e.description ∧
        is_internal_transfer e.description = false ∧ entryKey e ∉ seen) →
      List.Pairwise (fun a b => entryKey a ≠ entryKey b) l →
      ((sanitizeAux cache seen (l.map cleanToRaw)).1.map fun e =>
          (e.date, e.description, e.amount)) =
        l.map fun e => (e.date, e.description, e.amount) := by
  induction l with
  | nil =>
    intro cache seen _ _
    rfl
  | cons e rest ih =>
    intro cache seen hinv hpw
    obtain ⟨hdesc, htr, hkey⟩ := hinv e (List.mem_cons_self _ _)
    rw [List.map_cons]
    unfold sanitizeAux
    dsimp only [cleanToRaw]
    rw [← hdesc]
    have htrn : ¬ is_internal_transfer e.description = true := by
      simp [htr]
    rw [if_neg htrn]
    have hcontn : ¬ seen.contains (sanitizeKey e.date e.amount
        (if normalize_description e.description ≠ "" then
          normalize_description e.description
        else pyLower e.description)) = true := by
      intro hcon
      apply hkey
      have hmem : sanitizeKey e.date e.amount
          (if normalize_description e.description ≠ "" then
            normalize_description e.description
          else pyLower e.description) ∈ seen := by
        simpa using hcon
      simpa [entryKey, sanitizeKey] using hmem
    rw [if_neg hcontn]
    rw [if_neg (show ¬ (true = false) from by decide)]
    rw [List.map_cons, List.map_cons]
    congr 1
    refine ih _ _ ?_ (List.pairwise_cons.mp hpw).2
    intro e' he'
    obtain ⟨hd', ht', hk'⟩ := hinv e' (List.mem_cons_of_mem _ he')
    refine ⟨hd', ht', ?_⟩
    intro hcon
    rcases List.mem_cons.mp hcon with heq | hmem
    · exact (List.pairwise_cons.mp hpw).1 e' he'
        (by simpa [entryKey, sanitizeKey] using heq.symm)
    · exact hk' hmem

unseal Rat.add Rat.mul Rat.inv Rat.sub in
/-- C4 counterexample: the claim fails as stated, in both parts.
`_normalize_description` is not idempotent: deleting the filler
`payment` from `paypaymentment` yields `payment`, which a second pass
deletes entirely (forecast_engine.py:259-260).  Nor is the sanitization
pass: two `misc stuff` rows (−5 and +5) categorize as `other` and
`income`, the income row writes the alias cache, and re-running the pass
on its own output flips the first row's category to `income` via the cache
hit (forecast_engine.py:345-350). -/
theorem sanitize_idempotence_cex :
    normalize_description (normalize_description "paypaymentment") ≠
      normalize_description "paypaymentment" ∧
    (sanitize_transactions
        (sanitize_transactions AliasCache.emp
          [{ isDict := true, date := some ⟨2025, 1, 1⟩,
             description := "misc stuff", amount := some (-5) },
           { isDict := true, date := some ⟨2025, 1, 2⟩,
             description := "misc stuff", amount := some 5 }]).2
        ((sanitize_transactions AliasCache.emp
          [{ isDict := true, date := some ⟨2025, 1, 1⟩,
             description := "misc stuff", amount := some (-5) },
           { isDict := true, date := some ⟨2025, 1, 2⟩,
             description := "misc stuff", amount := some 5 }]).1.map
          cleanToRaw)).1 ≠
      (sanitize_transactions AliasCache.emp
        [{ isDict := true, date := some ⟨2025, 1, 1⟩,
           description := "misc stuff", amount := some (-5) },
         { isDict := true, date := some ⟨2025, 1, 2⟩,
           description := "misc stuff", amount := some 5 }]).1 := by
  refine ⟨by decide, by decide⟩

/-- C4 (amended): re-running the sanitization pass on its own output (under
any alias-cache state) preserves every row's date, description and amount —
no row is dropped as a transfer or duplicate and none is re-normalized; only
the category column may be recomputed through the process-wide alias cache
(forecast_engine.py:310-359). -/
theorem sanitize_row_stability (cache cache2 : AliasCache)
    (txs : List RawTx) :
    ((sanitize_transactions cache2
        ((sanitize_transactions cache txs).1.map cleanToRaw)).1.map fun e =>
      (e.date, e.description, e.amount)) =
      (sanitize_transactions cache txs).1.map fun e =>
        (e.date, e.description, e.amount) := by
  have hkeys := sanitizeAux_keys txs cache []
  have htr := sanitizeAux_no_transfers txs cache []
  exact sanitize_second_pass (sanitize_transactions cache txs).1 cache2 []
    (fun e he => ⟨(hkeys.1 e he).1, htr e he, by simp⟩) hkeys.2

end Forecaster
